import Mathlib

/-!
Shallow embedding of the arana `function` package: the AST-to-script
expression translator (`exprAtom2script` and friends), the memoized
script computer, and the evaluation front-end, together with proofs of
the specified properties.

Conventions of the embedding:
* Go string-builder emission is modelled by passing the builder content
  (`sb : String`) through each function and returning the grown content.
* Fallible translation returns `Except TransErr String`.
* A Go `panic` is modelled as the distinguished error `TransErr.panik`,
  which every frame propagates unchanged (in particular the one
  `errors.WithStack` call never wraps it, mirroring the fact that a Go
  panic unwinds without being seen as an `error` value).
* External collaborators that are not part of this repository slice
  (the `ast` node accessors, `cmp` operator symbols, `misc.Escape`,
  `time.Duration`) are modelled from the specification; each such
  definition carries a doc comment saying so.
-/

/-- Error values produced by the translator. `colErr` is the sentinel
`ErrCannotEvalWithColumnName`; `unsupported` covers the recoverable
`errors.New`/`errors.Errorf` values; `panik` models a Go panic;
`withStack` models an `errors.WithStack` wrapper around an error. -/
inductive TransErr where
  | colErr
  | unsupported (msg : String)
  | panik (msg : String)
  | withStack (e : TransErr)
  deriving DecidableEq, Repr

/-- Go `errors.WithStack` applied on an error-propagation path. A panic is
not an error value in Go, so it passes through unchanged. -/
def TransErr.withStackW : TransErr → TransErr
  | .panik m => .panik m
  | e => .withStack e

/-- Comparison operators of the external `cmp` package. -/
inductive CmpOp where
  | ceq | cne | clt | clte | cgt | cgte
  deriving DecidableEq, Repr

/-- Modelled from the spec: the textual SQL symbol written by the external
`cmp.Comparison.WriteTo`; the spec only requires that operators other than
equality and inequality pass through unchanged. -/
def CmpOp.writeTo : CmpOp → String
  | .ceq => "="
  | .cne => "<>"
  | .clt => "<"
  | .clte => "<="
  | .cgt => ">"
  | .cgte => ">="

namespace ast

/-- Target types of a CAST expression. Go `ast.CastType` is an integer
type, so values outside the named constants are representable; they are
modelled by `unknownCastType`. -/
inductive CastType where
  | castToSigned
  | castToSignedInteger
  | castToUnsigned
  | castToUnsignedInteger
  | castToBinary
  | castToNChar
  | castToChar
  | castToDate
  | castToDateTime
  | castToTime
  | castToJson
  | castToDecimal
  | unknownCastType (code : Nat)
  deriving DecidableEq, Repr

/-- Metadata of a CAST target: its type, the two dimensions returned by
`Dimensions()`, and the optional charset returned by `Charset()`. -/
structure CastInfo where
  type : CastType
  d0 : Int
  d1 : Int
  charset : Option String
  deriving DecidableEq, Repr

mutual

/-- Go `ast.ExpressionAtom` interface: the closed variant set the
translator dispatches on, with `otherAtom` standing for any other
implementation of the interface (carrying its `%T` type name). -/
inductive ExpressionAtom where
  | intervalAtom (value : PredicateNode) (durationNs : Int)
  | mathAtom (m : MathExpressionAtom)
  | constantAtom (s : String)
  | unaryAtom (operator : String) (inner : UnaryInner)
  | columnNameAtom (name : String)
  | nestedAtom (first : ExpressionNode)
  | variableAtom (n : Int)
  | functionCallAtom (f : FunctionCallee)
  | otherAtom (tyName : String)

/-- Go `ast.MathExpressionAtom`: left operand, operator text, right operand. -/
inductive MathExpressionAtom where
  | mk (left : ExpressionAtom) (operator : String) (right : ExpressionAtom)

/-- The dynamic type of `ast.UnaryExpressionAtom.Inner`, an open interface
value: a plain expression atom, a binary comparison, or anything else. -/
inductive UnaryInner where
  | innerAtom (a : ExpressionAtom)
  | innerCmp (c : BinaryComparisonPredicateNode)
  | innerOther (tyName : String)

/-- Go `ast.BinaryComparisonPredicateNode`. -/
inductive BinaryComparisonPredicateNode where
  | mk (left : PredicateNode) (op : CmpOp) (right : PredicateNode)

/-- Go `ast.PredicateNode` interface, with `otherP` for the remaining
implementations (like/in/between/regexp predicates). -/
inductive PredicateNode where
  | atomP (a : ExpressionAtom)
  | binCmpP (c : BinaryComparisonPredicateNode)
  | otherP (tyName : String)

/-- Go `ast.ExpressionNode` interface: a predicate-expression wrapper or
any other implementation. -/
inductive ExpressionNode where
  | predicateExpr (p : PredicateNode)
  | otherExpr (tyName : String)

/-- The dynamic type of `ast.FunctionCallExpressionAtom.F`. -/
inductive FunctionCallee where
  | calleeFunction (f : Function)
  | calleeAggr (name : String)
  | calleeCast (c : CastFunction)
  | calleeCaseWhen (c : CaseWhenElseFunction)
  | calleeOther (tyName : String)

/-- Go `ast.Function`: a name and an ordered argument list. -/
inductive Function where
  | mk (name : String) (args : List FunctionArg)

/-- Go `ast.FunctionArg`: the `Type` tag together with the matching
`Value` payload (the two are set together by the ast constructors).
`argConstant` carries the text written by `arg.Restore`, which is
external to this repository slice. -/
inductive FunctionArg where
  | argColumn (name : String)
  | argConstant (restored : String)
  | argExpression (p : PredicateNode)
  | argFunction (f : Function)
  | argCastFunction (c : CastFunction)
  | argCaseWhen (c : CaseWhenElseFunction)

/-- Go `ast.CastFunction`: optional cast metadata (`GetCast`), optional
bare charset (`GetCharset`), and the source expression (`Source()`). -/
inductive CastFunction where
  | mk (cast : Option CastInfo) (charset : Option String) (source : ExpressionNode)

/-- Go `ast.CaseWhenElseFunction`: optional CASE subject (`Case()`),
ordered (when, then) branch pairs (`Branches()`), optional else
(`Else()`). -/
inductive CaseWhenElseFunction where
  | mk (caseNode : Option ExpressionNode)
       (branches : List (FunctionArg × FunctionArg))
       (elseArg : Option FunctionArg)

end

end ast

/-- The `$` prefix for script-level function names. -/
def _prefixMySQLFunc : String := "$"

/-- Go `TranslateFunction`: prefix a function name for the script dialect. -/
def TranslateFunction (name : String) : String :=
  _prefixMySQLFunc ++ name

/-- Go `writeFuncName`: emit the prefixed function name into the builder. -/
def writeFuncName (sb : String) (name : String) : String :=
  sb ++ _prefixMySQLFunc ++ name

/-- Go `writeVariable`: emit a positional argument reference. -/
def writeVariable (sb : String) (n : Int) : String :=
  sb ++ "arguments[" ++ toString n ++ "]"

/-- Modelled from the spec: `FuncUnary`, the script function name used for
unary operators, rendered as `$UNARY(...)` per the specification; its
definition lives outside this repository slice. -/
def FuncUnary : String := "$UNARY"

/-- Modelled from the spec: `misc.Escape(s, misc.EscapeSingleQuote)`
backslash-escapes single-quote characters; the helper lives outside this
repository slice. -/
def escapeSingleQuote (s : String) : String :=
  String.join (s.toList.map fun c => if c = '\x27' then "\\\x27" else String.singleton c)

/-- Modelled from the spec: `time.Duration` normalization of a number of
seconds to nanoseconds, used by the external `IntervalExpressionAtom.Duration`. -/
def secondsToNanos (s : Int) : Int := s * 1000000000

/-- Go `IsEvalWithColumnErr`: pointer-equality test against the sentinel
`ErrCannotEvalWithColumnName`; any other error value (including a
`WithStack` wrapper around the sentinel) compares unequal. -/
def IsEvalWithColumnErr : TransErr → Bool
  | .colErr => true
  | _ => false

/-- The duplicated comparison-operator switch of `exprAtom2script` and
`handleArg`: equality renders `==`, inequality `!=`, all other operators
write their own symbol. -/
def cmpScript : CmpOp → String
  | .ceq => "=="
  | .cne => "!="
  | o => o.writeTo

/-- The header part of Go `castFunction2script`: everything written before
the source expression, or the error/panic taken instead. -/
def castHeader (sb : String) (castOpt : Option ast.CastInfo)
    (charsetOpt : Option String) : Except TransErr String :=
  match castOpt with
  | some c =>
    match c.type with
    | .castToUnsigned => .ok (writeFuncName sb "CAST_UNSIGNED" ++ "(")
    | .castToUnsignedInteger => .ok (writeFuncName sb "CAST_UNSIGNED" ++ "(")
    | .castToSigned => .ok (writeFuncName sb "CAST_SIGNED" ++ "(")
    | .castToSignedInteger => .ok (writeFuncName sb "CAST_SIGNED" ++ "(")
    | .castToBinary => .error (.unsupported "cast to binary is not supported yet")
    | .castToNChar =>
      .ok (writeFuncName sb "CAST_NCHAR" ++ "(" ++
        (if c.d0 > 0 then toString c.d0 else "0") ++ ", ")
    | .castToChar =>
      .ok (writeFuncName sb "CAST_CHAR" ++ "(" ++
        (if c.d0 > 0 then toString c.d0 else "0") ++ ", " ++
        (match c.charset with
         | some cs => "\x27" ++ escapeSingleQuote cs ++ "\x27"
         | none => "\x27\x27") ++ ", ")
    | .castToDate => .ok (writeFuncName sb "CAST_DATE" ++ "(")
    | .castToDateTime => .ok (writeFuncName sb "CAST_DATETIME" ++ "(")
    | .castToTime => .ok (writeFuncName sb "CAST_TIME" ++ "(")
    | .castToJson => .error (.unsupported "cast to json is not supported yet")
    | .castToDecimal =>
      .ok (writeFuncName sb "CAST_DECIMAL" ++ "(" ++
        (if c.d0 > 0 then toString c.d0 else "0") ++ ", " ++
        (if c.d1 > 0 then toString c.d1 else "0") ++ ", ")
    | .unknownCastType _ => .ok sb
  | none =>
    match charsetOpt with
    | some cs =>
      .ok (writeFuncName sb "CAST_CHARSET(" ++ "\x27" ++ escapeSingleQuote cs ++ "\x27" ++ ", ")
    | none => .error (.panik "unreachable")

/-- The trailing run of closing parentheses written at the end of
`caseWhenFunction2script`, one per branch (the Go loop writes one byte
per iteration). -/
def closeParens : Nat → String
  | 0 => ""
  | n + 1 => closeParens n ++ ")" 

mutual

/-- Go `exprAtom2script`: translate one expression atom into the builder. -/
def exprAtom2script (sb : String) (node : ast.ExpressionAtom) : Except TransErr String :=
  match node with
  | .intervalAtom (.atomP a) ns =>
    match exprAtom2script sb a with
    | .error e => .error e.withStackW
    | .ok sb1 => .ok (sb1 ++ " * " ++ toString ns)
  | .intervalAtom (.binCmpP _) _ =>
    .error (.unsupported "invalid expr *ast.BinaryComparisonPredicateNode for interval expression")
  | .intervalAtom (.otherP t) _ =>
    .error (.unsupported ("invalid expr " ++ t ++ " for interval expression"))
  | .mathAtom m => math2script sb m
  | .constantAtom s => .ok (sb ++ s)
  | .unaryAtom op (.innerAtom a) =>
    match exprAtom2script (sb ++ FuncUnary ++ "(\x27" ++ op ++ "\x27, ") a with
    | .error e => .error e
    | .ok sb1 => .ok (sb1 ++ ")")
  | .unaryAtom op (.innerCmp (.mk l o r)) =>
    match handleCompareAtom (sb ++ FuncUnary ++ "(\x27" ++ op ++ "\x27, ") l with
    | .error e => .error e
    | .ok sb1 =>
      match handleCompareAtom (sb1 ++ " " ++ cmpScript o ++ " ") r with
      | .error e => .error e
      | .ok sb2 => .ok (sb2 ++ ")")
  | .unaryAtom _ (.innerOther _) => .error (.panik "unreachable")
  | .columnNameAtom _ => .error .colErr
  | .nestedAtom (.predicateExpr (.atomP a)) =>
    match exprAtom2script (sb ++ "(") a with
    | .error e => .error e
    | .ok sb1 => .ok (sb1 ++ ")")
  | .nestedAtom (.predicateExpr (.binCmpP _)) => .error (.panik "interface conversion")
  | .nestedAtom (.predicateExpr (.otherP _)) => .error (.panik "interface conversion")
  | .nestedAtom (.otherExpr _) => .error (.panik "interface conversion")
  | .variableAtom n => .ok (writeVariable sb n)
  | .functionCallAtom (.calleeFunction f) => function2script sb f
  | .functionCallAtom (.calleeAggr _) =>
    .error (.unsupported "aggr function should not appear here")
  | .functionCallAtom (.calleeCast c) => castFunction2script sb c
  | .functionCallAtom (.calleeCaseWhen c) => caseWhenFunction2script sb c
  | .functionCallAtom (.calleeOther t) =>
    .error (.unsupported ("expression atom within function call " ++ t ++ " is not supported yet"))
  | .otherAtom t =>
    .error (.unsupported ("expression atom within " ++ t ++ " is not supported yet"))

/-- Go `math2script`: left operand, spaced operator, right operand. -/
def math2script (sb : String) (node : ast.MathExpressionAtom) : Except TransErr String :=
  match node with
  | .mk left op right =>
    match exprAtom2script sb left with
    | .error e => .error e
    | .ok sb1 => exprAtom2script (sb1 ++ " " ++ op ++ " ") right

/-- Go `handleCompareAtom`: only an atom predicate is supported. -/
def handleCompareAtom (sb : String) (node : ast.PredicateNode) : Except TransErr String :=
  match node with
  | .atomP a => exprAtom2script sb a
  | .binCmpP _ =>
    .error (.unsupported "unsupported compare atom node *ast.BinaryComparisonPredicateNode in case-when function")
  | .otherP t =>
    .error (.unsupported ("unsupported compare atom node " ++ t ++ " in case-when function"))

/-- Go `handleArg`: render one function argument by its tag. -/
def handleArg (sb : String) (arg : ast.FunctionArg) : Except TransErr String :=
  match arg with
  | .argColumn _ => .error .colErr
  | .argConstant s => .ok (sb ++ s)
  | .argExpression (.atomP a) => exprAtom2script sb a
  | .argExpression (.binCmpP (.mk l o r)) =>
    match handleCompareAtom sb l with
    | .error e => .error e
    | .ok sb1 => handleCompareAtom (sb1 ++ " " ++ cmpScript o ++ " ") r
  | .argExpression (.otherP t) => .error (.unsupported ("unsupported " ++ t))
  | .argFunction f => function2script sb f
  | .argCastFunction c => castFunction2script sb c
  | .argCaseWhen c => caseWhenFunction2script sb c

/-- The argument loop of Go `function2script`, with `first` tracking
whether a `", "` separator is due. -/
def handleArgs (sb : String) (first : Bool) (args : List ast.FunctionArg) : Except TransErr String :=
  match args with
  | [] => .ok sb
  | a :: rest =>
    match handleArg (if first then sb else sb ++ ", ") a with
    | .error e => .error e
    | .ok sb1 => handleArgs sb1 false rest

/-- Go `function2script`: prefixed name, parenthesized argument list. -/
def function2script (sb : String) (node : ast.Function) : Except TransErr String :=
  match node with
  | .mk name args =>
    match handleArgs (writeFuncName sb name ++ "(") true args with
    | .error e => .error e
    | .ok sb1 => .ok (sb1 ++ ")")

/-- Go `castFunction2script`: header per the cast metadata, then the
unwrapped source atom, then the closing parenthesis. The source unwrap
is a Go type assertion, so a non-conforming source is a panic. -/
def castFunction2script (sb : String) (node : ast.CastFunction) : Except TransErr String :=
  match node with
  | .mk castOpt charsetOpt (.predicateExpr (.atomP a)) =>
    match castHeader sb castOpt charsetOpt with
    | .error e => .error e
    | .ok sb1 =>
      match exprAtom2script sb1 a with
      | .error e => .error e
      | .ok sb2 => .ok (sb2 ++ ")")
  | .mk castOpt charsetOpt (.predicateExpr (.binCmpP _)) =>
    match castHeader sb castOpt charsetOpt with
    | .error e => .error e
    | .ok _ => .error (.panik "interface conversion")
  | .mk castOpt charsetOpt (.predicateExpr (.otherP _)) =>
    match castHeader sb castOpt charsetOpt with
    | .error e => .error e
    | .ok _ => .error (.panik "interface conversion")
  | .mk castOpt charsetOpt (.otherExpr _) =>
    match castHeader sb castOpt charsetOpt with
    | .error e => .error e
    | .ok _ => .error (.panik "interface conversion")

/-- The CASE-subject computation of Go `caseWhenFunction2script`: the
subject is rendered into a fresh builder. -/
def caseHeader : Option ast.ExpressionNode → Except TransErr String
  | none => .ok ""
  | some (.predicateExpr (.atomP a)) => exprAtom2script "" a
  | some (.predicateExpr (.binCmpP _)) =>
    .error (.unsupported "invalid expression type *ast.PredicateExpressionNode as the CASE body")
  | some (.predicateExpr (.otherP _)) =>
    .error (.unsupported "invalid expression type *ast.PredicateExpressionNode as the CASE body")
  | some (.otherExpr t) =>
    .error (.unsupported ("invalid expression type " ++ t ++ " as the CASE body"))

/-- The branch loop of Go `caseWhenFunction2script`: each branch opens a
`$IF(`, renders the when-argument, appends ` == (<caseScript>)` when the
subject script is nonempty, then the then-argument. -/
def caseBranches (sb : String) (caseScript : String) (first : Bool)
    (branches : List (ast.FunctionArg × ast.FunctionArg)) : Except TransErr String :=
  match branches with
  | [] => .ok sb
  | (whenA, thenA) :: rest =>
    match handleArg (writeFuncName (if first then sb else sb ++ ", ") "IF" ++ "(") whenA with
    | .error e => .error e
    | .ok sb1 =>
      match handleArg ((if caseScript.length > 0
                        then sb1 ++ " == (" ++ caseScript ++ ")"
                        else sb1) ++ ", ") thenA with
      | .error e => .error e
      | .ok sb2 => caseBranches sb2 caseScript false rest

/-- The else part of Go `caseWhenFunction2script`: a `", "` then the
translated else-argument, or the literal `null` when absent. -/
def caseElse (sb : String) : Option ast.FunctionArg → Except TransErr String
  | some els => handleArg (sb ++ ", ") els
  | none => .ok (sb ++ ", " ++ "null")

/-- Go `caseWhenFunction2script`: subject script, branch loop, else part,
and one closing parenthesis per branch. -/
def caseWhenFunction2script (sb : String) (node : ast.CaseWhenElseFunction) : Except TransErr String :=
  match node with
  | .mk caseNode branches elseArg =>
    match caseHeader caseNode with
    | .error e => .error e
    | .ok caseScript =>
      match caseBranches sb caseScript true branches with
      | .error e => .error e
      | .ok sb1 =>
        match caseElse sb1 elseArg with
        | .error e => .error e
        | .ok sb2 => .ok (sb2 ++ closeParens branches.length)

end

/-- Prefixing helper: prepend `sb` to the payload of a successful result. -/
def prefixed (sb : String) (r : Except TransErr String) : Except TransErr String :=
  r.map (fun s => sb ++ s)

@[simp]
theorem prefixed_ok (sb s : String) : prefixed sb (.ok s) = .ok (sb ++ s) := rfl

@[simp]
theorem prefixed_error (sb : String) (e : TransErr) : prefixed sb (.error e) = .error e := rfl

@[simp]
theorem prefixed_empty (r : Except TransErr String) : prefixed "" r = r := by
  cases r <;> simp [prefixed, Except.map, String.empty_append]

theorem castHeader_pre (sb : String) (castOpt : Option ast.CastInfo)
    (charsetOpt : Option String) :
    castHeader sb castOpt charsetOpt = prefixed sb (castHeader "" castOpt charsetOpt) := by
  cases castOpt with
  | none =>
    cases charsetOpt <;>
      simp [castHeader, writeFuncName, String.append_assoc, String.empty_append]
  | some c =>
    cases hty : c.type <;>
      simp [castHeader, hty, writeFuncName, String.append_assoc, String.empty_append]

theorem prefixed_prefixed (x y : String) (r : Except TransErr String) :
    prefixed x (prefixed y r) = prefixed (x ++ y) r := by
  cases r <;> simp [prefixed, Except.map, String.append_assoc]

mutual

/-- Emission of an expression atom depends only on the node: translating
into a builder equals appending the fresh translation to the builder. -/
theorem exprAtom2script_pre (sb : String) (n : ast.ExpressionAtom) :
    exprAtom2script sb n = prefixed sb (exprAtom2script "" n) := by
  cases n with
  | intervalAtom v ns =>
    cases v with
    | atomP a =>
      simp only [exprAtom2script]
      rw [exprAtom2script_pre sb a]
      cases hx : exprAtom2script "" a with
      | error e => simp
      | ok s => simp [String.append_assoc, String.empty_append]
    | binCmpP c => simp [exprAtom2script]
    | otherP t => simp [exprAtom2script]
  | mathAtom m =>
    simp only [exprAtom2script]
    exact math2script_pre sb m
  | constantAtom s => simp [exprAtom2script, String.empty_append]
  | unaryAtom op inner =>
    cases inner with
    | innerAtom a =>
      simp only [exprAtom2script]
      have ha : ∀ x y, exprAtom2script (x ++ y) a = prefixed x (exprAtom2script y a) :=
        fun x y => by
          rw [exprAtom2script_pre (x ++ y) a, exprAtom2script_pre y a, prefixed_prefixed]
      simp only [ha]
      cases hx : exprAtom2script "\x27, " a with
      | error e => simp
      | ok s => simp [String.append_assoc, String.empty_append]
    | innerCmp c =>
      cases c with
      | mk l o r =>
        simp only [exprAtom2script]
        have hl : ∀ x y, handleCompareAtom (x ++ y) l = prefixed x (handleCompareAtom y l) :=
          fun x y => by
            rw [handleCompareAtom_pre (x ++ y) l, handleCompareAtom_pre y l, prefixed_prefixed]
        simp only [hl]
        cases hx : handleCompareAtom "\x27, " l with
        | error e => simp
        | ok s1 =>
          simp only [prefixed_ok, prefixed_error]
          have hr : ∀ x y, handleCompareAtom (x ++ y) r = prefixed x (handleCompareAtom y r) :=
            fun x y => by
              rw [handleCompareAtom_pre (x ++ y) r, handleCompareAtom_pre y r, prefixed_prefixed]
          simp only [hr]
          cases hy : handleCompareAtom " " r with
          | error e => simp
          | ok s2 => simp [String.append_assoc, String.empty_append]
    | innerOther t => simp [exprAtom2script]
  | columnNameAtom name => simp [exprAtom2script]
  | nestedAtom first =>
    cases first with
    | predicateExpr p =>
      cases p with
      | atomP a =>
        simp only [exprAtom2script]
        have ha : ∀ x y, exprAtom2script (x ++ y) a = prefixed x (exprAtom2script y a) :=
          fun x y => by
            rw [exprAtom2script_pre (x ++ y) a, exprAtom2script_pre y a, prefixed_prefixed]
        simp only [ha]
        cases hx : exprAtom2script "(" a with
        | error e => simp
        | ok s => simp [String.append_assoc, String.empty_append]
      | binCmpP c => simp [exprAtom2script]
      | otherP t => simp [exprAtom2script]
    | otherExpr t => simp [exprAtom2script]
  | variableAtom n =>
    simp [exprAtom2script, writeVariable, String.append_assoc, String.empty_append]
  | functionCallAtom f =>
    cases f with
    | calleeFunction g =>
      simp only [exprAtom2script]
      exact function2script_pre sb g
    | calleeAggr name => simp [exprAtom2script]
    | calleeCast c =>
      simp only [exprAtom2script]
      exact castFunction2script_pre sb c
    | calleeCaseWhen c =>
      simp only [exprAtom2script]
      exact caseWhenFunction2script_pre sb c
    | calleeOther t => simp [exprAtom2script]
  | otherAtom t => simp [exprAtom2script]

/-- Emission of a math expression depends only on the node. -/
theorem math2script_pre (sb : String) (n : ast.MathExpressionAtom) :
    math2script sb n = prefixed sb (math2script "" n) := by
  cases n with
  | mk left op right =>
    simp only [math2script]
    rw [exprAtom2script_pre sb left]
    cases hx : exprAtom2script "" left with
    | error e => simp
    | ok s1 =>
      simp only [prefixed_ok]
      have hr : ∀ x y, exprAtom2script (x ++ y) right = prefixed x (exprAtom2script y right) :=
        fun x y => by
          rw [exprAtom2script_pre (x ++ y) right, exprAtom2script_pre y right, prefixed_prefixed]
      simp only [hr]
      cases hy : exprAtom2script " " right with
      | error e => simp
      | ok s2 => simp [String.append_assoc, String.empty_append]

/-- Emission of a compare atom depends only on the node. -/
theorem handleCompareAtom_pre (sb : String) (n : ast.PredicateNode) :
    handleCompareAtom sb n = prefixed sb (handleCompareAtom "" n) := by
  cases n with
  | atomP a =>
    simp only [handleCompareAtom]
    exact exprAtom2script_pre sb a
  | binCmpP c => simp [handleCompareAtom]
  | otherP t => simp [handleCompareAtom]

/-- Emission of a function argument depends only on the node. -/
theorem handleArg_pre (sb : String) (arg : ast.FunctionArg) :
    handleArg sb arg = prefixed sb (handleArg "" arg) := by
  cases arg with
  | argColumn name => simp [handleArg]
  | argConstant s => simp [handleArg, String.empty_append]
  | argExpression p =>
    cases p with
    | atomP a =>
      simp only [handleArg]
      exact exprAtom2script_pre sb a
    | binCmpP c =>
      cases c with
      | mk l o r =>
        simp only [handleArg]
        rw [handleCompareAtom_pre sb l]
        cases hx : handleCompareAtom "" l with
        | error e => simp
        | ok s1 =>
          simp only [prefixed_ok]
          have hr : ∀ x y, handleCompareAtom (x ++ y) r = prefixed x (handleCompareAtom y r) :=
            fun x y => by
              rw [handleCompareAtom_pre (x ++ y) r, handleCompareAtom_pre y r, prefixed_prefixed]
          simp only [hr]
          cases hy : handleCompareAtom " " r with
          | error e => simp
          | ok s2 => simp [String.append_assoc, String.empty_append]
    | otherP t => simp [handleArg]
  | argFunction f =>
    simp only [handleArg]
    exact function2script_pre sb f
  | argCastFunction c =>
    simp only [handleArg]
    exact castFunction2script_pre sb c
  | argCaseWhen c =>
    simp only [handleArg]
    exact caseWhenFunction2script_pre sb c

/-- Emission of an argument list depends only on the list. -/
theorem handleArgs_pre (sb : String) (first : Bool) (args : List ast.FunctionArg) :
    handleArgs sb first args = prefixed sb (handleArgs "" first args) := by
  cases args with
  | nil => simp [handleArgs, String.append_empty]
  | cons a rest =>
    have ha : ∀ x y, handleArg (x ++ y) a = prefixed x (handleArg y a) :=
      fun x y => by
        rw [handleArg_pre (x ++ y) a, handleArg_pre y a, prefixed_prefixed]
    have hrest : ∀ x y, handleArgs (x ++ y) false rest = prefixed x (handleArgs y false rest) :=
      fun x y => by
        rw [handleArgs_pre (x ++ y) false rest, handleArgs_pre y false rest, prefixed_prefixed]
    cases first with
    | true =>
      simp only [handleArgs, if_true]
      rw [handleArg_pre sb a]
      cases hx : handleArg "" a with
      | error e => simp
      | ok s1 => simp [hrest, String.append_assoc, String.empty_append]
    | false =>
      simp only [handleArgs, Bool.false_eq_true, if_false]
      simp only [ha]
      cases hx : handleArg ", " a with
      | error e => simp
      | ok s1 => simp [hrest, String.append_assoc, String.empty_append]

/-- Emission of a function call depends only on the node. -/
theorem function2script_pre (sb : String) (n : ast.Function) :
    function2script sb n = prefixed sb (function2script "" n) := by
  cases n with
  | mk name args =>
    simp only [function2script, writeFuncName]
    have hargs : ∀ x y, handleArgs (x ++ y) true args = prefixed x (handleArgs y true args) :=
      fun x y => by
        rw [handleArgs_pre (x ++ y) true args, handleArgs_pre y true args, prefixed_prefixed]
    simp only [hargs]
    cases hx : handleArgs "(" true args with
    | error e => simp
    | ok s => simp [String.append_assoc, String.empty_append]

/-- Emission of a cast expression depends only on the node. -/
theorem castFunction2script_pre (sb : String) (n : ast.CastFunction) :
    castFunction2script sb n = prefixed sb (castFunction2script "" n) := by
  cases n with
  | mk castOpt charsetOpt source =>
    cases source with
    | predicateExpr p =>
      cases p with
      | atomP a =>
        simp only [castFunction2script]
        rw [castHeader_pre sb castOpt charsetOpt]
        cases hh : castHeader "" castOpt charsetOpt with
        | error e => simp
        | ok s1 =>
          simp only [prefixed_ok]
          have ha : ∀ x y, exprAtom2script (x ++ y) a = prefixed x (exprAtom2script y a) :=
            fun x y => by
              rw [exprAtom2script_pre (x ++ y) a, exprAtom2script_pre y a, prefixed_prefixed]
          simp only [ha]
          cases hx : exprAtom2script s1 a with
          | error e => simp
          | ok s2 => simp [String.append_assoc, String.empty_append]
      | binCmpP c =>
        simp only [castFunction2script]
        rw [castHeader_pre sb castOpt charsetOpt]
        cases hh : castHeader "" castOpt charsetOpt with
        | error e => simp
        | ok s1 => simp
      | otherP t =>
        simp only [castFunction2script]
        rw [castHeader_pre sb castOpt charsetOpt]
        cases hh : castHeader "" castOpt charsetOpt with
        | error e => simp
        | ok s1 => simp
    | otherExpr t =>
      simp only [castFunction2script]
      rw [castHeader_pre sb castOpt charsetOpt]
      cases hh : castHeader "" castOpt charsetOpt with
      | error e => simp
      | ok s1 => simp

/-- Emission of the CASE branch loop depends only on the branches and the
subject script. -/
theorem caseBranches_pre (sb : String) (caseScript : String) (first : Bool)
    (branches : List (ast.FunctionArg × ast.FunctionArg)) :
    caseBranches sb caseScript first branches =
      prefixed sb (caseBranches "" caseScript first branches) := by
  cases branches with
  | nil => simp [caseBranches, String.append_empty]
  | cons b rest =>
    cases b with
    | mk whenA thenA =>
      have hw : ∀ x y, handleArg (x ++ y) whenA = prefixed x (handleArg y whenA) :=
        fun x y => by
          rw [handleArg_pre (x ++ y) whenA, handleArg_pre y whenA, prefixed_prefixed]
      have ht : ∀ x y, handleArg (x ++ y) thenA = prefixed x (handleArg y thenA) :=
        fun x y => by
          rw [handleArg_pre (x ++ y) thenA, handleArg_pre y thenA, prefixed_prefixed]
      have hrest : ∀ x y, caseBranches (x ++ y) caseScript false rest =
          prefixed x (caseBranches y caseScript false rest) :=
        fun x y => by
          rw [caseBranches_pre (x ++ y) caseScript false rest,
              caseBranches_pre y caseScript false rest, prefixed_prefixed]
      cases first with
      | true =>
        simp only [caseBranches, writeFuncName]
        simp only [hw]
        cases hx : handleArg "(" whenA with
        | error e => simp
        | ok s1 =>
          simp only [prefixed_ok, prefixed_error]
          by_cases hcs : caseScript.length > 0
          · simp only [hcs, if_pos, ite_true]
            simp only [ht]
            cases hy : handleArg ", " thenA with
            | error e => simp
            | ok s2 =>
              simp only [prefixed_ok, prefixed_error]
              simp only [hrest]
              cases hz : caseBranches s2 caseScript false rest with
              | error e => simp
              | ok s3 => simp [String.append_assoc, String.empty_append]
          · simp only [hcs, ite_false]
            simp only [ht]
            cases hy : handleArg ", " thenA with
            | error e => simp
            | ok s2 =>
              simp only [prefixed_ok, prefixed_error]
              simp only [hrest]
              cases hz : caseBranches s2 caseScript false rest with
              | error e => simp
              | ok s3 => simp [String.append_assoc, String.empty_append]
      | false =>
        simp only [caseBranches, writeFuncName]
        simp only [hw]
        cases hx : handleArg "(" whenA with
        | error e => simp
        | ok s1 =>
          simp only [prefixed_ok, prefixed_error]
          by_cases hcs : caseScript.length > 0
          · simp only [hcs, if_pos, ite_true]
            simp only [ht]
            cases hy : handleArg ", " thenA with
            | error e => simp
            | ok s2 =>
              simp only [prefixed_ok, prefixed_error]
              simp only [hrest]
              cases hz : caseBranches s2 caseScript false rest with
              | error e => simp
              | ok s3 => simp [String.append_assoc, String.empty_append]
          · simp only [hcs, ite_false]
            simp only [ht]
            cases hy : handleArg ", " thenA with
            | error e => simp
            | ok s2 =>
              simp only [prefixed_ok, prefixed_error]
              simp only [hrest]
              cases hz : caseBranches s2 caseScript false rest with
              | error e => simp
              | ok s3 => simp [String.append_assoc, String.empty_append]

/-- Emission of the CASE else part depends only on the else argument. -/
theorem caseElse_pre (sb : String) (elseArg : Option ast.FunctionArg) :
    caseElse sb elseArg = prefixed sb (caseElse "" elseArg) := by
  cases elseArg with
  | none => simp [caseElse, String.append_assoc, String.empty_append]
  | some els =>
    have ha : ∀ x y, handleArg (x ++ y) els = prefixed x (handleArg y els) :=
      fun x y => by
        rw [handleArg_pre (x ++ y) els, handleArg_pre y els, prefixed_prefixed]
    simp only [caseElse]
    simp only [ha]
    simp [prefixed_prefixed, String.append_empty]

/-- Emission of a CASE-WHEN-ELSE expression depends only on the node. -/
theorem caseWhenFunction2script_pre (sb : String) (n : ast.CaseWhenElseFunction) :
    caseWhenFunction2script sb n = prefixed sb (caseWhenFunction2script "" n) := by
  cases n with
  | mk caseNode branches elseArg =>
    simp only [caseWhenFunction2script]
    cases hh : caseHeader caseNode with
    | error e => simp
    | ok cs =>
      dsimp only
      rw [caseBranches_pre sb cs true branches]
      cases hb : caseBranches "" cs true branches with
      | error e => simp
      | ok s1 =>
        simp only [prefixed_ok, prefixed_error]
        have hce : ∀ x y, caseElse (x ++ y) elseArg = prefixed x (caseElse y elseArg) :=
          fun x y => by
            rw [caseElse_pre (x ++ y) elseArg, caseElse_pre y elseArg, prefixed_prefixed]
        simp only [hce]
        cases hel : caseElse s1 elseArg with
        | error e => simp
        | ok s2 => simp [String.append_assoc, String.empty_append]

end

/-- The dynamic type of `scriptComputer.source`: the four supported node
shapes of the `compute` switch, or any other value (with its type name). -/
inductive Source where
  | ofCaseWhen (c : ast.CaseWhenElseFunction)
  | ofCast (c : ast.CastFunction)
  | ofFunction (f : ast.Function)
  | ofMath (m : ast.MathExpressionAtom)
  | ofOther (tyName : String)

/-- The translation switch inside Go `scriptComputer.compute`, which runs
the matching translator on a fresh builder. -/
def sourceScript : Source → Except TransErr String
  | .ofCaseWhen c => caseWhenFunction2script "" c
  | .ofCast c => castFunction2script "" c
  | .ofFunction f => function2script "" f
  | .ofMath m => math2script "" m
  | .ofOther t => .error (.unsupported ("invalid script source node type " ++ t))

/-- Go `scriptComputer`: the one-shot guard (`sync.Once`, modelled
sequentially by the `done` flag), the transient source reference, and the
result slots. -/
structure ScriptComputer where
  done : Bool
  source : Option Source
  script : String
  err : Option TransErr

/-- Go `newScriptComputer`. -/
def newScriptComputer (src : Source) : ScriptComputer :=
  ⟨false, some src, "", none⟩

/-- Go `scriptComputer.compute`, sequentialized: the first call runs the
translation switch once, stores the result, and releases the source
reference; later calls return the stored result unchanged. -/
def ScriptComputer.compute (sc : ScriptComputer) : (String × Option TransErr) × ScriptComputer :=
  if sc.done then ((sc.script, sc.err), sc)
  else
    match (match sc.source with
           | some src => sourceScript src
           | none => .error (.unsupported "invalid script source node type <nil>")) with
    | .error e => ((sc.script, some e), ⟨true, none, sc.script, some e⟩)
    | .ok s => ((s, none), ⟨true, none, s, none⟩)

/-- Errors surfaced by the evaluation front-end: a translation error
returned unmodified, or an execution error from the script engine. -/
inductive EvalError where
  | transE (e : TransErr)
  | execE (m : String)
  deriving DecidableEq, Repr

/-- Go `EvalFunction` (and the identically-shaped `EvalCastFunction`,
`EvalCaseWhenFunction`, `Eval`): resolve the compiled script through the
node's memoized computation, return the translation error unmodified on
failure, otherwise run the external script engine `vm` on the script and
the caller-supplied arguments. The engine is a parameter because it is an
external collaborator. -/
def EvalFunction {α : Type} (vm : String → List α → Except String α)
    (sc : ScriptComputer) (args : List α) :
    (Option α × Option EvalError) × ScriptComputer :=
  match sc.compute with
  | ((_, some e), sc1) => ((none, some (.transE e)), sc1)
  | ((s, none), sc1) =>
    match vm s args with
    | .error m => ((none, some (.execE m)), sc1)
    | .ok v => ((some v, none), sc1)

mutual

/-- Does an expression atom contain a column reference anywhere? -/
def atomHasColumn : ast.ExpressionAtom → Bool
  | .intervalAtom v _ => predHasColumn v
  | .mathAtom m => mathHasColumn m
  | .constantAtom _ => false
  | .unaryAtom _ inner => innerHasColumn inner
  | .columnNameAtom _ => true
  | .nestedAtom e => exprNodeHasColumn e
  | .variableAtom _ => false
  | .functionCallAtom f => calleeHasColumn f
  | .otherAtom _ => false

def mathHasColumn : ast.MathExpressionAtom → Bool
  | .mk l _ r => atomHasColumn l || atomHasColumn r

def innerHasColumn : ast.UnaryInner → Bool
  | .innerAtom a => atomHasColumn a
  | .innerCmp c => cmpHasColumn c
  | .innerOther _ => false

def cmpHasColumn : ast.BinaryComparisonPredicateNode → Bool
  | .mk l _ r => predHasColumn l || predHasColumn r

def predHasColumn : ast.PredicateNode → Bool
  | .atomP a => atomHasColumn a
  | .binCmpP c => cmpHasColumn c
  | .otherP _ => false

def exprNodeHasColumn : ast.ExpressionNode → Bool
  | .predicateExpr p => predHasColumn p
  | .otherExpr _ => false

def calleeHasColumn : ast.FunctionCallee → Bool
  | .calleeFunction f => funcHasColumn f
  | .calleeAggr _ => false
  | .calleeCast c => castHasColumn c
  | .calleeCaseWhen c => caseHasColumn c
  | .calleeOther _ => false

def funcHasColumn : ast.Function → Bool
  | .mk _ args => argsHaveColumn args

def argsHaveColumn : List ast.FunctionArg → Bool
  | [] => false
  | a :: rest => argHasColumn a || argsHaveColumn rest

def argHasColumn : ast.FunctionArg → Bool
  | .argColumn _ => true
  | .argConstant _ => false
  | .argExpression p => predHasColumn p
  | .argFunction f => funcHasColumn f
  | .argCastFunction c => castHasColumn c
  | .argCaseWhen c => caseHasColumn c

def castHasColumn : ast.CastFunction → Bool
  | .mk _ _ src => exprNodeHasColumn src

def branchesHaveColumn : List (ast.FunctionArg × ast.FunctionArg) → Bool
  | [] => false
  | (w, t) :: rest => argHasColumn w || argHasColumn t || branchesHaveColumn rest

def optExprHasColumn : Option ast.ExpressionNode → Bool
  | none => false
  | some e => exprNodeHasColumn e

def optArgHasColumn : Option ast.FunctionArg → Bool
  | none => false
  | some a => argHasColumn a

def caseHasColumn : ast.CaseWhenElseFunction → Bool
  | .mk cn bs els =>
    optExprHasColumn cn || branchesHaveColumn bs || optArgHasColumn els

end

/-- Is a translation result a success? -/
def exOk : Except TransErr String → Bool
  | .ok _ => true
  | .error _ => false

/-- Is a translation result a modelled Go panic? -/
def isPanik : Except TransErr String → Bool
  | .error (.panik _) => true
  | _ => false

@[simp]
theorem exOk_ok (s : String) : exOk (.ok s) = true := rfl

@[simp]
theorem exOk_error (e : TransErr) : exOk (.error e) = false := rfl

@[simp]
theorem isPanik_ok (s : String) : isPanik (.ok s) = false := rfl

mutual

/-- An atom containing a column reference never translates successfully. -/
theorem colAtom_fails (sb : String) (n : ast.ExpressionAtom)
    (h : atomHasColumn n = true) : exOk (exprAtom2script sb n) = false := by
  cases n with
  | intervalAtom v ns =>
    cases v with
    | atomP a =>
      simp only [atomHasColumn, predHasColumn] at h
      simp only [exprAtom2script]
      cases hx : exprAtom2script sb a with
      | error e => simp
      | ok s =>
        have hc := colAtom_fails sb a h
        rw [hx] at hc
        simp at hc
    | binCmpP c => simp [exprAtom2script]
    | otherP t => simp [exprAtom2script]
  | mathAtom m =>
    simp only [atomHasColumn] at h
    simp only [exprAtom2script]
    exact colMath_fails sb m h
  | constantAtom s => simp [atomHasColumn] at h
  | unaryAtom op inner =>
    cases inner with
    | innerAtom a =>
      simp only [atomHasColumn, innerHasColumn] at h
      simp only [exprAtom2script]
      cases hx : exprAtom2script (sb ++ FuncUnary ++ "(\x27" ++ op ++ "\x27, ") a with
      | error e => simp
      | ok s =>
        have hc := colAtom_fails (sb ++ FuncUnary ++ "(\x27" ++ op ++ "\x27, ") a h
        rw [hx] at hc
        simp at hc
    | innerCmp c =>
      cases c with
      | mk l o r =>
        simp only [atomHasColumn, innerHasColumn, cmpHasColumn] at h
        simp only [exprAtom2script]
        cases hx : handleCompareAtom (sb ++ FuncUnary ++ "(\x27" ++ op ++ "\x27, ") l with
        | error e => simp
        | ok s1 =>
          dsimp only
          cases hl : predHasColumn l with
          | true =>
            have hc := colCmpPred_fails (sb ++ FuncUnary ++ "(\x27" ++ op ++ "\x27, ") l hl
            rw [hx] at hc
            simp at hc
          | false =>
            rw [hl] at h
            simp at h
            cases hy : handleCompareAtom (s1 ++ " " ++ cmpScript o ++ " ") r with
            | error e => simp
            | ok s2 =>
              have hc := colCmpPred_fails (s1 ++ " " ++ cmpScript o ++ " ") r h
              rw [hy] at hc
              simp at hc
    | innerOther t => simp [atomHasColumn, innerHasColumn] at h
  | columnNameAtom name => simp [exprAtom2script]
  | nestedAtom first =>
    cases first with
    | predicateExpr p =>
      cases p with
      | atomP a =>
        simp only [atomHasColumn, exprNodeHasColumn, predHasColumn] at h
        simp only [exprAtom2script]
        cases hx : exprAtom2script (sb ++ "(") a with
        | error e => simp
        | ok s =>
          have hc := colAtom_fails (sb ++ "(") a h
          rw [hx] at hc
          simp at hc
      | binCmpP c => simp [exprAtom2script]
      | otherP t => simp [exprAtom2script]
    | otherExpr t => simp [exprAtom2script]
  | variableAtom n => simp [atomHasColumn] at h
  | functionCallAtom f =>
    cases f with
    | calleeFunction g =>
      simp only [atomHasColumn, calleeHasColumn] at h
      simp only [exprAtom2script]
      exact colFunc_fails sb g h
    | calleeAggr name => simp [exprAtom2script]
    | calleeCast c =>
      simp only [atomHasColumn, calleeHasColumn] at h
      simp only [exprAtom2script]
      exact colCast_fails sb c h
    | calleeCaseWhen c =>
      simp only [atomHasColumn, calleeHasColumn] at h
      simp only [exprAtom2script]
      exact colCase_fails sb c h
    | calleeOther t => simp [atomHasColumn, calleeHasColumn] at h
  | otherAtom t => simp [atomHasColumn] at h

/-- A math expression containing a column reference never translates
successfully. -/
theorem colMath_fails (sb : String) (m : ast.MathExpressionAtom)
    (h : mathHasColumn m = true) : exOk (math2script sb m) = false := by
  cases m with
  | mk l op r =>
    simp only [mathHasColumn] at h
    simp only [math2script]
    cases hx : exprAtom2script sb l with
    | error e => simp
    | ok s1 =>
      dsimp only
      cases hl : atomHasColumn l with
      | true =>
        have hc := colAtom_fails sb l hl
        rw [hx] at hc
        simp at hc
      | false =>
        rw [hl] at h
        simp at h
        cases hy : exprAtom2script (s1 ++ " " ++ op ++ " ") r with
        | error e => simp
        | ok s2 =>
          have hc := colAtom_fails (s1 ++ " " ++ op ++ " ") r h
          rw [hy] at hc
          simp at hc

/-- A compare-atom predicate containing a column reference never
translates successfully. -/
theorem colCmpPred_fails (sb : String) (p : ast.PredicateNode)
    (h : predHasColumn p = true) : exOk (handleCompareAtom sb p) = false := by
  cases p with
  | atomP a =>
    simp only [predHasColumn] at h
    simp only [handleCompareAtom]
    exact colAtom_fails sb a h
  | binCmpP c => simp [handleCompareAtom]
  | otherP t => simp [handleCompareAtom]

/-- A function argument containing a column reference never translates
successfully. -/
theorem colArg_fails (sb : String) (arg : ast.FunctionArg)
    (h : argHasColumn arg = true) : exOk (handleArg sb arg) = false := by
  cases arg with
  | argColumn name => simp [handleArg]
  | argConstant s => simp [argHasColumn] at h
  | argExpression p =>
    cases p with
    | atomP a =>
      simp only [argHasColumn, predHasColumn] at h
      simp only [handleArg]
      exact colAtom_fails sb a h
    | binCmpP c =>
      cases c with
      | mk l o r =>
        simp only [argHasColumn, predHasColumn, cmpHasColumn] at h
        simp only [handleArg]
        cases hx : handleCompareAtom sb l with
        | error e => simp
        | ok s1 =>
          dsimp only
          cases hl : predHasColumn l with
          | true =>
            have hc := colCmpPred_fails sb l hl
            rw [hx] at hc
            simp at hc
          | false =>
            rw [hl] at h
            simp at h
            exact colCmpPred_fails (s1 ++ " " ++ cmpScript o ++ " ") r h
    | otherP t => simp [handleArg]
  | argFunction f =>
    simp only [argHasColumn] at h
    simp only [handleArg]
    exact colFunc_fails sb f h
  | argCastFunction c =>
    simp only [argHasColumn] at h
    simp only [handleArg]
    exact colCast_fails sb c h
  | argCaseWhen c =>
    simp only [argHasColumn] at h
    simp only [handleArg]
    exact colCase_fails sb c h

/-- An argument list containing a column reference never translates
successfully. -/
theorem colArgs_fails (sb : String) (first : Bool) (args : List ast.FunctionArg)
    (h : argsHaveColumn args = true) : exOk (handleArgs sb first args) = false := by
  cases args with
  | nil => simp [argsHaveColumn] at h
  | cons a rest =>
    simp only [argsHaveColumn] at h
    simp only [handleArgs]
    cases hx : handleArg (if first then sb else sb ++ ", ") a with
    | error e => simp
    | ok s1 =>
      dsimp only
      cases ha : argHasColumn a with
      | true =>
        have hc := colArg_fails (if first then sb else sb ++ ", ") a ha
        rw [hx] at hc
        simp at hc
      | false =>
        rw [ha] at h
        simp at h
        exact colArgs_fails s1 false rest h

/-- A function call containing a column reference never translates
successfully. -/
theorem colFunc_fails (sb : String) (f : ast.Function)
    (h : funcHasColumn f = true) : exOk (function2script sb f) = false := by
  cases f with
  | mk name args =>
    simp only [funcHasColumn] at h
    simp only [function2script]
    cases hx : handleArgs (writeFuncName sb name ++ "(") true args with
    | error e => simp
    | ok s =>
      have hc := colArgs_fails (writeFuncName sb name ++ "(") true args h
      rw [hx] at hc
      simp at hc

/-- A cast expression containing a column reference never translates
successfully. -/
theorem colCast_fails (sb : String) (c : ast.CastFunction)
    (h : castHasColumn c = true) : exOk (castFunction2script sb c) = false := by
  cases c with
  | mk castOpt charsetOpt source =>
    cases source with
    | predicateExpr p =>
      cases p with
      | atomP a =>
        simp only [castHasColumn, exprNodeHasColumn, predHasColumn] at h
        simp only [castFunction2script]
        cases hh : castHeader sb castOpt charsetOpt with
        | error e => simp
        | ok s1 =>
          dsimp only
          cases hx : exprAtom2script s1 a with
          | error e => simp
          | ok s2 =>
            have hc := colAtom_fails s1 a h
            rw [hx] at hc
            simp at hc
      | binCmpP cc =>
        simp only [castFunction2script]
        cases hh : castHeader sb castOpt charsetOpt with
        | error e => simp
        | ok s1 => simp
      | otherP t =>
        simp only [castFunction2script]
        cases hh : castHeader sb castOpt charsetOpt with
        | error e => simp
        | ok s1 => simp
    | otherExpr t =>
      simp only [castFunction2script]
      cases hh : castHeader sb castOpt charsetOpt with
      | error e => simp
      | ok s1 => simp

/-- A CASE subject containing a column reference never translates
successfully. -/
theorem colCaseHeader_fails (cn : Option ast.ExpressionNode)
    (h : optExprHasColumn cn = true) : exOk (caseHeader cn) = false := by
  cases cn with
  | none => simp [optExprHasColumn] at h
  | some e =>
    cases e with
    | predicateExpr p =>
      cases p with
      | atomP a =>
        simp only [optExprHasColumn, exprNodeHasColumn, predHasColumn] at h
        simp only [caseHeader]
        exact colAtom_fails "" a h
      | binCmpP c => simp [caseHeader]
      | otherP t => simp [caseHeader]
    | otherExpr t => simp [caseHeader]

/-- A branch list containing a column reference never translates
successfully. -/
theorem colBranches_fails (sb cs : String) (first : Bool)
    (bs : List (ast.FunctionArg × ast.FunctionArg))
    (h : branchesHaveColumn bs = true) : exOk (caseBranches sb cs first bs) = false := by
  cases bs with
  | nil => simp [branchesHaveColumn] at h
  | cons b rest =>
    cases b with
    | mk w t =>
      simp only [branchesHaveColumn] at h
      simp only [caseBranches]
      cases hx : handleArg (writeFuncName (if first then sb else sb ++ ", ") "IF" ++ "(") w with
      | error e => simp
      | ok s1 =>
        dsimp only
        cases hw : argHasColumn w with
        | true =>
          have hc := colArg_fails (writeFuncName (if first then sb else sb ++ ", ") "IF" ++ "(") w hw
          rw [hx] at hc
          simp at hc
        | false =>
          rw [hw] at h
          simp at h
          cases hy : handleArg ((if cs.length > 0 then s1 ++ " == (" ++ cs ++ ")" else s1) ++ ", ") t with
          | error e => simp
          | ok s2 =>
            dsimp only
            cases ht : argHasColumn t with
            | true =>
              have hc := colArg_fails ((if cs.length > 0 then s1 ++ " == (" ++ cs ++ ")" else s1) ++ ", ") t ht
              rw [hy] at hc
              simp at hc
            | false =>
              rw [ht] at h
              simp at h
              exact colBranches_fails s2 cs false rest h

/-- A CASE else-argument containing a column reference never translates
successfully. -/
theorem colCaseElse_fails (sb : String) (els : Option ast.FunctionArg)
    (h : optArgHasColumn els = true) : exOk (caseElse sb els) = false := by
  cases els with
  | none => simp [optArgHasColumn] at h
  | some a =>
    simp only [optArgHasColumn] at h
    simp only [caseElse]
    exact colArg_fails (sb ++ ", ") a h

/-- A CASE-WHEN-ELSE expression containing a column reference never
translates successfully. -/
theorem colCase_fails (sb : String) (c : ast.CaseWhenElseFunction)
    (h : caseHasColumn c = true) : exOk (caseWhenFunction2script sb c) = false := by
  cases c with
  | mk cn bs els =>
    simp only [caseHasColumn] at h
    simp only [caseWhenFunction2script]
    cases hh : caseHeader cn with
    | error e => simp
    | ok cs =>
      dsimp only
      cases hcn : optExprHasColumn cn with
      | true =>
        have hc := colCaseHeader_fails cn hcn
        rw [hh] at hc
        simp at hc
      | false =>
        rw [hcn] at h
        simp at h
        cases hb : caseBranches sb cs true bs with
        | error e => simp
        | ok s1 =>
          dsimp only
          cases hbs : branchesHaveColumn bs with
          | true =>
            have hc := colBranches_fails sb cs true bs hbs
            rw [hb] at hc
            simp at hc
          | false =>
            rw [hbs] at h
            simp at h
            cases hel : caseElse s1 els with
            | error e => simp
            | ok s2 =>
              have hc := colCaseElse_fails s1 els h
              rw [hel] at hc
              simp at hc

end

mutual

/-- No shape in this atom triggers one of the fatal translator panics. -/
def atomPanicFree : ast.ExpressionAtom → Bool
  | .intervalAtom v _ => predPanicFree v
  | .mathAtom m => mathPanicFree m
  | .constantAtom _ => true
  | .unaryAtom _ (.innerAtom a) => atomPanicFree a
  | .unaryAtom _ (.innerCmp c) => cmpPanicFree c
  | .unaryAtom _ (.innerOther _) => false
  | .columnNameAtom _ => true
  | .nestedAtom (.predicateExpr (.atomP a)) => atomPanicFree a
  | .nestedAtom _ => false
  | .variableAtom _ => true
  | .functionCallAtom f => calleePanicFree f
  | .otherAtom _ => true

def mathPanicFree : ast.MathExpressionAtom → Bool
  | .mk l _ r => atomPanicFree l && atomPanicFree r

def cmpPanicFree : ast.BinaryComparisonPredicateNode → Bool
  | .mk l _ r => predPanicFree l && predPanicFree r

def predPanicFree : ast.PredicateNode → Bool
  | .atomP a => atomPanicFree a
  | .binCmpP c => cmpPanicFree c
  | .otherP _ => true

def calleePanicFree : ast.FunctionCallee → Bool
  | .calleeFunction f => funcPanicFree f
  | .calleeAggr _ => true
  | .calleeCast c => castPanicFree c
  | .calleeCaseWhen c => casePanicFree c
  | .calleeOther _ => true

def funcPanicFree : ast.Function → Bool
  | .mk _ args => argsPanicFree args

def argsPanicFree : List ast.FunctionArg → Bool
  | [] => true
  | a :: rest => argPanicFree a && argsPanicFree rest

def argPanicFree : ast.FunctionArg → Bool
  | .argColumn _ => true
  | .argConstant _ => true
  | .argExpression p => predPanicFree p
  | .argFunction f => funcPanicFree f
  | .argCastFunction c => castPanicFree c
  | .argCaseWhen c => casePanicFree c

/-- A cast is panic-free when it names a target type or a charset (the
`GetCast`/`GetCharset` double miss is the `unreachable` panic) and its
source unwraps to an atom predicate (the source unwrap is a type
assertion). -/
def castPanicFree : ast.CastFunction → Bool
  | .mk castOpt charsetOpt src =>
    (castOpt.isSome || charsetOpt.isSome) &&
    (match src with
     | .predicateExpr (.atomP a) => atomPanicFree a
     | _ => false)

def branchesPanicFree : List (ast.FunctionArg × ast.FunctionArg) → Bool
  | [] => true
  | (w, t) :: rest => argPanicFree w && argPanicFree t && branchesPanicFree rest

def optExprPanicFree : Option ast.ExpressionNode → Bool
  | none => true
  | some (.predicateExpr p) => predPanicFree p
  | some (.otherExpr _) => true

def optArgPanicFree : Option ast.FunctionArg → Bool
  | none => true
  | some a => argPanicFree a

def casePanicFree : ast.CaseWhenElseFunction → Bool
  | .mk cn bs els => optExprPanicFree cn && branchesPanicFree bs && optArgPanicFree els

end

/-- The cast header never panics when a target type or charset is present. -/
theorem castHeader_noPanic (sb : String) (castOpt : Option ast.CastInfo)
    (charsetOpt : Option String) (h : (castOpt.isSome || charsetOpt.isSome) = true) :
    isPanik (castHeader sb castOpt charsetOpt) = false := by
  cases castOpt with
  | some c => cases hty : c.type <;> simp [castHeader, hty, isPanik]
  | none =>
    cases charsetOpt with
    | some cs => simp [castHeader, isPanik]
    | none => simp [Option.isSome] at h

mutual

/-- A panic-free atom never produces a panic result. -/
theorem pfAtom_noPanic (sb : String) (n : ast.ExpressionAtom)
    (h : atomPanicFree n = true) : isPanik (exprAtom2script sb n) = false := by
  cases n with
  | intervalAtom v ns =>
    cases v with
    | atomP a =>
      simp only [atomPanicFree, predPanicFree] at h
      simp only [exprAtom2script]
      cases hx : exprAtom2script sb a with
      | ok s => simp
      | error e =>
        have hc := pfAtom_noPanic sb a h
        rw [hx] at hc
        cases e <;> simp_all [TransErr.withStackW, isPanik]
    | binCmpP c => simp [exprAtom2script, isPanik]
    | otherP t => simp [exprAtom2script, isPanik]
  | mathAtom m =>
    simp only [atomPanicFree] at h
    simp only [exprAtom2script]
    exact pfMath_noPanic sb m h
  | constantAtom s => simp [exprAtom2script]
  | unaryAtom op inner =>
    cases inner with
    | innerAtom a =>
      simp only [atomPanicFree] at h
      simp only [exprAtom2script]
      cases hx : exprAtom2script (sb ++ FuncUnary ++ "(\x27" ++ op ++ "\x27, ") a with
      | ok s => simp
      | error e =>
        have hc := pfAtom_noPanic (sb ++ FuncUnary ++ "(\x27" ++ op ++ "\x27, ") a h
        rw [hx] at hc
        exact hc
    | innerCmp c =>
      cases c with
      | mk l o r =>
        simp only [atomPanicFree, cmpPanicFree, Bool.and_eq_true] at h
        obtain ⟨h1, h2⟩ := h
        simp only [exprAtom2script]
        cases hx : handleCompareAtom (sb ++ FuncUnary ++ "(\x27" ++ op ++ "\x27, ") l with
        | error e =>
          have hc := pfCmpPred_noPanic (sb ++ FuncUnary ++ "(\x27" ++ op ++ "\x27, ") l h1
          rw [hx] at hc
          exact hc
        | ok s1 =>
          dsimp only
          cases hy : handleCompareAtom (s1 ++ " " ++ cmpScript o ++ " ") r with
          | ok s2 => simp
          | error e =>
            have hc := pfCmpPred_noPanic (s1 ++ " " ++ cmpScript o ++ " ") r h2
            rw [hy] at hc
            exact hc
    | innerOther t => simp [atomPanicFree] at h
  | columnNameAtom name => simp [exprAtom2script, isPanik]
  | nestedAtom first =>
    cases first with
    | predicateExpr p =>
      cases p with
      | atomP a =>
        simp only [atomPanicFree] at h
        simp only [exprAtom2script]
        cases hx : exprAtom2script (sb ++ "(") a with
        | ok s => simp
        | error e =>
          have hc := pfAtom_noPanic (sb ++ "(") a h
          rw [hx] at hc
          exact hc
      | binCmpP c => simp [atomPanicFree] at h
      | otherP t => simp [atomPanicFree] at h
    | otherExpr t => simp [atomPanicFree] at h
  | variableAtom n => simp [exprAtom2script]
  | functionCallAtom f =>
    cases f with
    | calleeFunction g =>
      simp only [atomPanicFree, calleePanicFree] at h
      simp only [exprAtom2script]
      exact pfFunc_noPanic sb g h
    | calleeAggr name => simp [exprAtom2script, isPanik]
    | calleeCast c =>
      simp only [atomPanicFree, calleePanicFree] at h
      simp only [exprAtom2script]
      exact pfCast_noPanic sb c h
    | calleeCaseWhen c =>
      simp only [atomPanicFree, calleePanicFree] at h
      simp only [exprAtom2script]
      exact pfCase_noPanic sb c h
    | calleeOther t => simp [exprAtom2script, isPanik]
  | otherAtom t => simp [exprAtom2script, isPanik]

/-- A panic-free math expression never produces a panic result. -/
theorem pfMath_noPanic (sb : String) (m : ast.MathExpressionAtom)
    (h : mathPanicFree m = true) : isPanik (math2script sb m) = false := by
  cases m with
  | mk l op r =>
    simp only [mathPanicFree, Bool.and_eq_true] at h
    obtain ⟨h1, h2⟩ := h
    simp only [math2script]
    cases hx : exprAtom2script sb l with
    | error e =>
      have hc := pfAtom_noPanic sb l h1
      rw [hx] at hc
      exact hc
    | ok s1 =>
      dsimp only
      cases hy : exprAtom2script (s1 ++ " " ++ op ++ " ") r with
      | ok s2 => simp
      | error e =>
        have hc := pfAtom_noPanic (s1 ++ " " ++ op ++ " ") r h2
        rw [hy] at hc
        exact hc

/-- A panic-free compare-atom predicate never produces a panic result. -/
theorem pfCmpPred_noPanic (sb : String) (p : ast.PredicateNode)
    (h : predPanicFree p = true) : isPanik (handleCompareAtom sb p) = false := by
  cases p with
  | atomP a =>
    simp only [predPanicFree] at h
    simp only [handleCompareAtom]
    exact pfAtom_noPanic sb a h
  | binCmpP c => simp [handleCompareAtom, isPanik]
  | otherP t => simp [handleCompareAtom, isPanik]

/-- A panic-free function argument never produces a panic result. -/
theorem pfArg_noPanic (sb : String) (arg : ast.FunctionArg)
    (h : argPanicFree arg = true) : isPanik (handleArg sb arg) = false := by
  cases arg with
  | argColumn name => simp [handleArg, isPanik]
  | argConstant s => simp [handleArg]
  | argExpression p =>
    cases p with
    | atomP a =>
      simp only [argPanicFree, predPanicFree] at h
      simp only [handleArg]
      exact pfAtom_noPanic sb a h
    | binCmpP c =>
      cases c with
      | mk l o r =>
        simp only [argPanicFree, predPanicFree, cmpPanicFree, Bool.and_eq_true] at h
        obtain ⟨h1, h2⟩ := h
        simp only [handleArg]
        cases hx : handleCompareAtom sb l with
        | error e =>
          have hc := pfCmpPred_noPanic sb l h1
          rw [hx] at hc
          exact hc
        | ok s1 =>
          dsimp only
          exact pfCmpPred_noPanic (s1 ++ " " ++ cmpScript o ++ " ") r h2
    | otherP t => simp [handleArg, isPanik]
  | argFunction f =>
    simp only [argPanicFree] at h
    simp only [handleArg]
    exact pfFunc_noPanic sb f h
  | argCastFunction c =>
    simp only [argPanicFree] at h
    simp only [handleArg]
    exact pfCast_noPanic sb c h
  | argCaseWhen c =>
    simp only [argPanicFree] at h
    simp only [handleArg]
    exact pfCase_noPanic sb c h

/-- A panic-free argument list never produces a panic result. -/
theorem pfArgs_noPanic (sb : String) (first : Bool) (args : List ast.FunctionArg)
    (h : argsPanicFree args = true) : isPanik (handleArgs sb first args) = false := by
  cases args with
  | nil => simp [handleArgs]
  | cons a rest =>
    simp only [argsPanicFree, Bool.and_eq_true] at h
    obtain ⟨h1, h2⟩ := h
    simp only [handleArgs]
    cases hx : handleArg (if first then sb else sb ++ ", ") a with
    | error e =>
      have hc := pfArg_noPanic (if first then sb else sb ++ ", ") a h1
      rw [hx] at hc
      exact hc
    | ok s1 =>
      dsimp only
      exact pfArgs_noPanic s1 false rest h2

/-- A panic-free function call never produces a panic result. -/
theorem pfFunc_noPanic (sb : String) (f : ast.Function)
    (h : funcPanicFree f = true) : isPanik (function2script sb f) = false := by
  cases f with
  | mk name args =>
    simp only [funcPanicFree] at h
    simp only [function2script]
    cases hx : handleArgs (writeFuncName sb name ++ "(") true args with
    | ok s => simp
    | error e =>
      have hc := pfArgs_noPanic (writeFuncName sb name ++ "(") true args h
      rw [hx] at hc
      exact hc

/-- A panic-free cast expression never produces a panic result. -/
theorem pfCast_noPanic (sb : String) (c : ast.CastFunction)
    (h : castPanicFree c = true) : isPanik (castFunction2script sb c) = false := by
  cases c with
  | mk castOpt charsetOpt source =>
    cases source with
    | predicateExpr p =>
      cases p with
      | atomP a =>
        simp only [castPanicFree, Bool.and_eq_true] at h
        obtain ⟨h1, h2⟩ := h
        simp only [castFunction2script]
        cases hh : castHeader sb castOpt charsetOpt with
        | error e =>
          have hc := castHeader_noPanic sb castOpt charsetOpt h1
          rw [hh] at hc
          exact hc
        | ok s1 =>
          dsimp only
          cases hx : exprAtom2script s1 a with
          | ok s2 => simp
          | error e =>
            have hc := pfAtom_noPanic s1 a h2
            rw [hx] at hc
            exact hc
      | binCmpP cc => simp [castPanicFree] at h
      | otherP t => simp [castPanicFree] at h
    | otherExpr t => simp [castPanicFree] at h

/-- A panic-free CASE subject never produces a panic result. -/
theorem pfCaseHeader_noPanic (cn : Option ast.ExpressionNode)
    (h : optExprPanicFree cn = true) : isPanik (caseHeader cn) = false := by
  cases cn with
  | none => simp [caseHeader]
  | some e =>
    cases e with
    | predicateExpr p =>
      cases p with
      | atomP a =>
        simp only [optExprPanicFree, predPanicFree] at h
        simp only [caseHeader]
        exact pfAtom_noPanic "" a h
      | binCmpP c => simp [caseHeader, isPanik]
      | otherP t => simp [caseHeader, isPanik]
    | otherExpr t => simp [caseHeader, isPanik]

/-- A panic-free branch list never produces a panic result. -/
theorem pfBranches_noPanic (sb cs : String) (first : Bool)
    (bs : List (ast.FunctionArg × ast.FunctionArg))
    (h : branchesPanicFree bs = true) : isPanik (caseBranches sb cs first bs) = false := by
  cases bs with
  | nil => simp [caseBranches]
  | cons b rest =>
    cases b with
    | mk w t =>
      simp only [branchesPanicFree, Bool.and_eq_true] at h
      obtain ⟨⟨h1, h2⟩, h3⟩ := h
      simp only [caseBranches]
      cases hx : handleArg (writeFuncName (if first then sb else sb ++ ", ") "IF" ++ "(") w with
      | error e =>
        have hc := pfArg_noPanic (writeFuncName (if first then sb else sb ++ ", ") "IF" ++ "(") w h1
        rw [hx] at hc
        exact hc
      | ok s1 =>
        dsimp only
        cases hy : handleArg ((if cs.length > 0 then s1 ++ " == (" ++ cs ++ ")" else s1) ++ ", ") t with
        | error e =>
          have hc := pfArg_noPanic ((if cs.length > 0 then s1 ++ " == (" ++ cs ++ ")" else s1) ++ ", ") t h2
          rw [hy] at hc
          exact hc
        | ok s2 =>
          dsimp only
          exact pfBranches_noPanic s2 cs false rest h3

/-- A panic-free CASE else-argument never produces a panic result. -/
theorem pfCaseElse_noPanic (sb : String) (els : Option ast.FunctionArg)
    (h : optArgPanicFree els = true) : isPanik (caseElse sb els) = false := by
  cases els with
  | none => simp [caseElse]
  | some a =>
    simp only [optArgPanicFree] at h
    simp only [caseElse]
    exact pfArg_noPanic (sb ++ ", ") a h

/-- A panic-free CASE-WHEN-ELSE expression never produces a panic result. -/
theorem pfCase_noPanic (sb : String) (c : ast.CaseWhenElseFunction)
    (h : casePanicFree c = true) : isPanik (caseWhenFunction2script sb c) = false := by
  cases c with
  | mk cn bs els =>
    simp only [casePanicFree, Bool.and_eq_true] at h
    obtain ⟨⟨h1, h2⟩, h3⟩ := h
    simp only [caseWhenFunction2script]
    cases hh : caseHeader cn with
    | error e =>
      have hc := pfCaseHeader_noPanic cn h1
      rw [hh] at hc
      exact hc
    | ok cs =>
      dsimp only
      cases hb : caseBranches sb cs true bs with
      | error e =>
        have hc := pfBranches_noPanic sb cs true bs h2
        rw [hb] at hc
        exact hc
      | ok s1 =>
        dsimp only
        cases hel : caseElse s1 els with
        | ok s2 => simp
        | error e =>
          have hc := pfCaseElse_noPanic s1 els h3
          rw [hel] at hc
          exact hc

end

/-- The spec-described right-nested IF chain: one `$IF` level per branch
in declared order, each when-script followed by ` == (<subject>)` exactly
when a CASE subject exists, the else-script innermost. This definition
follows the words of the specification, to be compared against the
translator output. -/
def ifChain (subject : Option String) : List (String × String) → String → String
  | [], els => els
  | (w, t) :: rest, els =>
    "$IF(" ++ w ++
      (match subject with
       | some c => " == (" ++ c ++ ")"
       | none => "") ++
      ", " ++ t ++ ", " ++ ifChain subject rest els ++ ")"

/-- Chain form with the code's emptiness test on the subject script,
used as the induction intermediary. -/
def ifChainStr (cs : String) : List (String × String) → String → String
  | [], els => els
  | (w, t) :: rest, els =>
    "$IF(" ++ w ++
      (if cs.length > 0 then " == (" ++ cs ++ ")" else "") ++
      ", " ++ t ++ ", " ++ ifChainStr cs rest els ++ ")"

/-- Pointwise translation facts for a branch list: each when/then argument
translates (on a fresh builder) to the paired script. -/
def argsScripts : List (ast.FunctionArg × ast.FunctionArg) → List (String × String) → Prop
  | [], [] => True
  | (w, t) :: rest, (ws, ts) :: rests =>
    handleArg "" w = .ok ws ∧ handleArg "" t = .ok ts ∧ argsScripts rest rests
  | _, _ => False

/-- The else-slot script of the specification: the translated
else-argument, or the literal `null` when the else-branch is absent. -/
def elseScriptSpec : Option ast.FunctionArg → String → Prop
  | none, s => s = "null"
  | some a, s => handleArg "" a = .ok s

theorem strLenPos (s : String) (h : s ≠ "") : 0 < s.length := by
  cases s with
  | mk data =>
    cases data with
    | nil => exact absurd rfl h
    | cons c cs => simp [String.length]

theorem ifChainStr_none (scripts : List (String × String)) (els : String) :
    ifChainStr "" scripts els = ifChain none scripts els := by
  induction scripts with
  | nil => rfl
  | cons x rest ih =>
    obtain ⟨w, t⟩ := x
    simp [ifChainStr, ifChain, ih]

theorem ifChainStr_some (cs : String) (hcs : cs ≠ "") (scripts : List (String × String))
    (els : String) : ifChainStr cs scripts els = ifChain (some cs) scripts els := by
  induction scripts with
  | nil => rfl
  | cons x rest ih =>
    obtain ⟨w, t⟩ := x
    simp [ifChainStr, ifChain, ih, strLenPos cs hcs]

/-- With at least one branch to render, the leading separator makes a
`first = false` loop entry equal to a `first = true` entry on the grown
builder. -/
theorem caseBranches_false_shift (sb cs : String) (b : ast.FunctionArg × ast.FunctionArg)
    (rest : List (ast.FunctionArg × ast.FunctionArg)) :
    caseBranches sb cs false (b :: rest) = caseBranches (sb ++ ", ") cs true (b :: rest) := by
  obtain ⟨w, t⟩ := b
  simp only [caseBranches, Bool.false_eq_true, if_false, if_true]

theorem chainLemma (cs elsS : String) (bs : List (ast.FunctionArg × ast.FunctionArg)) :
    ∀ scripts : List (String × String), argsScripts bs scripts → bs ≠ [] →
    ∀ sb : String,
      (caseBranches sb cs true bs).map
          (fun sb1 => sb1 ++ ", " ++ elsS ++ closeParens bs.length)
        = .ok (sb ++ ifChainStr cs scripts elsS) := by
  have hIF : ("$IF(" : String) = "$" ++ "IF" ++ "(" := rfl
  induction bs with
  | nil => intro scripts h hne sb; exact absurd rfl hne
  | cons b bs2 ih =>
    obtain ⟨w, t⟩ := b
    intro scripts h hne sb
    cases scripts with
    | nil => simp [argsScripts] at h
    | cons p scripts2 =>
      obtain ⟨ws, ts⟩ := p
      obtain ⟨hw, ht, hrest⟩ := h
      simp only [caseBranches, if_true]
      rw [handleArg_pre (writeFuncName sb "IF" ++ "(") w, hw]
      simp only [prefixed_ok]
      rw [handleArg_pre ((if cs.length > 0
            then writeFuncName sb "IF" ++ "(" ++ ws ++ " == (" ++ cs ++ ")"
            else writeFuncName sb "IF" ++ "(" ++ ws) ++ ", ") t, ht]
      simp only [prefixed_ok]
      cases bs2 with
      | nil =>
        cases scripts2 with
        | cons q qs => simp [argsScripts] at hrest
        | nil =>
          by_cases hcs : cs.length > 0 <;>
            simp [caseBranches, Except.map, ifChainStr, hcs, closeParens, hIF,
              writeFuncName, _prefixMySQLFunc, String.append_assoc, String.empty_append]
      | cons b2 bs3 =>
        rw [caseBranches_false_shift]
        have hih := ih scripts2 hrest (by simp) ((if cs.length > 0
            then writeFuncName sb "IF" ++ "(" ++ ws ++ " == (" ++ cs ++ ")"
            else writeFuncName sb "IF" ++ "(" ++ ws) ++ ", " ++ ts ++ ", ")
        cases hcb : caseBranches ((if cs.length > 0
            then writeFuncName sb "IF" ++ "(" ++ ws ++ " == (" ++ cs ++ ")"
            else writeFuncName sb "IF" ++ "(" ++ ws) ++ ", " ++ ts ++ ", ") cs true (b2 :: bs3) with
        | error e =>
          rw [hcb] at hih
          simp [Except.map] at hih
        | ok sb1 =>
          rw [hcb] at hih
          simp only [Except.map, Except.ok.injEq] at hih
          simp only [Except.map, Except.ok.injEq]
          have hre : sb1 ++ ", " ++ elsS ++ closeParens ((w, t) :: b2 :: bs3).length
              = (sb1 ++ ", " ++ elsS ++ closeParens (b2 :: bs3).length) ++ ")" := by
            simp [closeParens, String.append_assoc]
          rw [hre, hih]
          by_cases hcs : cs.length > 0 <;>
            simp [ifChainStr, hcs, hIF, writeFuncName, _prefixMySQLFunc,
              String.append_assoc, String.empty_append]

/-- General CASE-WHEN-ELSE rendering: with a successfully rendered
subject script, at least one branch, branch scripts, and an else script,
the translator output is the right-nested chain (in the code-side chain
form). -/
theorem caseWhen_chain (sb cs elsS : String) (caseNode : Option ast.ExpressionNode)
    (bs : List (ast.FunctionArg × ast.FunctionArg)) (scripts : List (String × String))
    (els : Option ast.FunctionArg)
    (hh : caseHeader caseNode = .ok cs)
    (hbs : argsScripts bs scripts) (hne : bs ≠ [])
    (hels : elseScriptSpec els elsS) :
    caseWhenFunction2script sb (.mk caseNode bs els) = .ok (sb ++ ifChainStr cs scripts elsS) := by
  have hchain := chainLemma cs elsS bs scripts hbs hne sb
  simp only [caseWhenFunction2script]
  rw [hh]
  dsimp only
  cases hcb : caseBranches sb cs true bs with
  | error e =>
    rw [hcb] at hchain
    simp [Except.map] at hchain
  | ok sb1 =>
    rw [hcb] at hchain
    simp only [Except.map, Except.ok.injEq] at hchain
    dsimp only
    cases els with
    | none =>
      simp only [elseScriptSpec] at hels
      subst hels
      simp only [caseElse]
      exact congrArg Except.ok hchain
    | some a =>
      simp only [elseScriptSpec] at hels
      simp only [caseElse]
      rw [handleArg_pre (sb1 ++ ", ") a, hels]
      simp only [prefixed_ok]
      exact congrArg Except.ok hchain

/-- C7: an interval literal over a single-atom predicate renders as the
translated atom, a ` * ` separator, and the duration in nanoseconds as an
integer literal; in particular 5 seconds over atom `x` renders as
`x * 5000000000`. -/
theorem C7_interval_rendering :
    (∀ (sb : String) (a : ast.ExpressionAtom) (ns : Int) (s : String),
       exprAtom2script sb a = .ok s →
       exprAtom2script sb (.intervalAtom (.atomP a) ns) = .ok (s ++ " * " ++ toString ns))
    ∧ exprAtom2script "" (.intervalAtom (.atomP (.constantAtom "x")) (secondsToNanos 5))
        = .ok "x * 5000000000" := by
  constructor
  · intro sb a ns s h
    simp only [exprAtom2script]
    rw [h]
  · rfl

/-- C7 witness: the general part applied at a variable-reference atom. -/
theorem C7_interval_rendering_witness :
    exprAtom2script "" (.variableAtom 0) = .ok "arguments[0]"
    ∧ exprAtom2script "" (.intervalAtom (.atomP (.variableAtom 0)) 9)
        = .ok ("arguments[0]" ++ " * " ++ toString (9 : Int)) :=
  ⟨rfl, C7_interval_rendering.1 "" (.variableAtom 0) 9 "arguments[0]" rfl⟩

/-- C8: in both rendering sites for a binary comparison (function argument
and unary operand), equality renders as `==`, inequality as `!=`, and every
other comparison operator is emitted unchanged via its own symbol. -/
theorem C8_comparison_rendering :
    cmpScript .ceq = "=="
    ∧ cmpScript .cne = "!="
    ∧ (∀ o : CmpOp, o ≠ .ceq → o ≠ .cne → cmpScript o = o.writeTo)
    ∧ (∀ (sb : String) (l : ast.PredicateNode) (o : CmpOp) (r : ast.PredicateNode) (L R : String),
         handleCompareAtom "" l = .ok L → handleCompareAtom "" r = .ok R →
         handleArg sb (.argExpression (.binCmpP (.mk l o r)))
           = .ok (sb ++ L ++ " " ++ cmpScript o ++ " " ++ R))
    ∧ (∀ (sb op : String) (l : ast.PredicateNode) (o : CmpOp) (r : ast.PredicateNode) (L R : String),
         handleCompareAtom "" l = .ok L → handleCompareAtom "" r = .ok R →
         exprAtom2script sb (.unaryAtom op (.innerCmp (.mk l o r)))
           = .ok (sb ++ FuncUnary ++ "(\x27" ++ op ++ "\x27, " ++ L ++ " " ++ cmpScript o ++ " " ++ R ++ ")")) := by
  refine ⟨rfl, rfl, ?_, ?_, ?_⟩
  · intro o h1 h2
    cases o <;> simp [cmpScript, CmpOp.writeTo] <;> simp at h1 h2
  · intro sb l o r L R hL hR
    simp only [handleArg]
    rw [handleCompareAtom_pre sb l, hL]
    simp only [prefixed_ok]
    rw [handleCompareAtom_pre (sb ++ L ++ " " ++ cmpScript o ++ " ") r, hR]
    simp only [prefixed_ok]
  · intro sb op l o r L R hL hR
    simp only [exprAtom2script]
    rw [handleCompareAtom_pre (sb ++ FuncUnary ++ "(\x27" ++ op ++ "\x27, ") l, hL]
    simp only [prefixed_ok]
    rw [handleCompareAtom_pre (sb ++ FuncUnary ++ "(\x27" ++ op ++ "\x27, " ++ L ++ " " ++ cmpScript o ++ " ") r, hR]
    simp only [prefixed_ok]

/-- C8 witness: a pass-through less-than comparison rendered as a function
argument. -/
theorem C8_comparison_rendering_witness :
    handleArg "" (.argExpression (.binCmpP
        (.mk (.atomP (.constantAtom "1")) .clt (.atomP (.constantAtom "2")))))
      = .ok "1 < 2" :=
  (C8_comparison_rendering.2.2.2.1 ""
    (.atomP (.constantAtom "1")) .clt (.atomP (.constantAtom "2")) "1" "2" rfl rfl).trans
    (by rfl)

/-- C9: translation is deterministic and emission depends only on the
node: translating into any builder prefix equals appending the fresh
translation of the node, so two independent runs emit byte-identical
script text. -/
theorem C9_determinism :
    (∀ (sb : String) (n : ast.ExpressionAtom),
       exprAtom2script sb n = prefixed sb (exprAtom2script "" n))
    ∧ (∀ (sb : String) (m : ast.MathExpressionAtom),
       math2script sb m = prefixed sb (math2script "" m)) :=
  ⟨exprAtom2script_pre, math2script_pre⟩

/-- C10: a present cast target whose type is none of the enumerated kinds
falls through the type switch silently: no error, no panic, and the
emitted script is just the translated source followed by the closing
parenthesis. -/
theorem C10_unknown_cast_type (sb : String) (code : Nat) (d0 d1 : Int)
    (cs chOpt : Option String) (a : ast.ExpressionAtom) (s : String)
    (h : exprAtom2script "" a = .ok s) :
    castFunction2script sb
        (.mk (some ⟨.unknownCastType code, d0, d1, cs⟩) chOpt (.predicateExpr (.atomP a)))
      = .ok (sb ++ s ++ ")") := by
  simp only [castFunction2script]
  rw [show castHeader sb (some ⟨.unknownCastType code, d0, d1, cs⟩) chOpt = .ok sb from rfl]
  dsimp only
  rw [exprAtom2script_pre sb a, h]
  simp only [prefixed_ok]

/-- C10 witness: an unknown cast type over the atom `x`. -/
theorem C10_unknown_cast_type_witness :
    castFunction2script ""
        (.mk (some ⟨.unknownCastType 99, 0, 0, none⟩) none
          (.predicateExpr (.atomP (.constantAtom "x"))))
      = .ok "x)" :=
  (C10_unknown_cast_type "" 99 0 0 none none (.constantAtom "x") "x" rfl).trans (by rfl)

/-- C4: CAST rendering — CHAR with size 10 and charset utf8 renders
`$CAST_CHAR(10, 'utf8', <source>)`; UNSIGNED renders
`$CAST_UNSIGNED(<source>)`; NCHAR/CHAR/DECIMAL default their numeric size
arguments to `0` and CHAR its charset literal to `''` when unspecified; a
charset-only cast renders `$CAST_CHARSET('<escaped>', <source>)`; casts to
BINARY or JSON always fail with an error. -/
theorem C4_cast_rendering :
    (∀ (sb : String) (d1 : Int) (chOpt : Option String) (a : ast.ExpressionAtom) (s : String),
       exprAtom2script "" a = .ok s →
       castFunction2script sb (.mk (some ⟨.castToChar, 10, d1, some "utf8"⟩) chOpt
           (.predicateExpr (.atomP a)))
         = .ok (sb ++ "$CAST_CHAR(10, \x27utf8\x27, " ++ s ++ ")"))
    ∧ (∀ (sb : String) (d0 d1 : Int) (cs chOpt : Option String) (a : ast.ExpressionAtom) (s : String),
       exprAtom2script "" a = .ok s →
       castFunction2script sb (.mk (some ⟨.castToUnsigned, d0, d1, cs⟩) chOpt
           (.predicateExpr (.atomP a)))
         = .ok (sb ++ "$CAST_UNSIGNED(" ++ s ++ ")"))
    ∧ (∀ (sb : String) (d1 : Int) (cs chOpt : Option String) (a : ast.ExpressionAtom) (s : String),
       exprAtom2script "" a = .ok s →
       castFunction2script sb (.mk (some ⟨.castToNChar, 0, d1, cs⟩) chOpt
           (.predicateExpr (.atomP a)))
         = .ok (sb ++ "$CAST_NCHAR(0, " ++ s ++ ")"))
    ∧ (∀ (sb : String) (d1 : Int) (chOpt : Option String) (a : ast.ExpressionAtom) (s : String),
       exprAtom2script "" a = .ok s →
       castFunction2script sb (.mk (some ⟨.castToChar, 0, d1, none⟩) chOpt
           (.predicateExpr (.atomP a)))
         = .ok (sb ++ "$CAST_CHAR(0, \x27\x27, " ++ s ++ ")"))
    ∧ (∀ (sb : String) (cs chOpt : Option String) (a : ast.ExpressionAtom) (s : String),
       exprAtom2script "" a = .ok s →
       castFunction2script sb (.mk (some ⟨.castToDecimal, 0, 0, cs⟩) chOpt
           (.predicateExpr (.atomP a)))
         = .ok (sb ++ "$CAST_DECIMAL(0, 0, " ++ s ++ ")"))
    ∧ (∀ (sb cs : String) (a : ast.ExpressionAtom) (s : String),
       exprAtom2script "" a = .ok s →
       castFunction2script sb (.mk none (some cs) (.predicateExpr (.atomP a)))
         = .ok (sb ++ "$CAST_CHARSET(\x27" ++ escapeSingleQuote cs ++ "\x27, " ++ s ++ ")"))
    ∧ (∀ (sb : String) (d0 d1 : Int) (cs chOpt : Option String) (source : ast.ExpressionNode),
       castFunction2script sb (.mk (some ⟨.castToBinary, d0, d1, cs⟩) chOpt source)
         = .error (.unsupported "cast to binary is not supported yet"))
    ∧ (∀ (sb : String) (d0 d1 : Int) (cs chOpt : Option String) (source : ast.ExpressionNode),
       castFunction2script sb (.mk (some ⟨.castToJson, d0, d1, cs⟩) chOpt source)
         = .error (.unsupported "cast to json is not supported yet")) := by
  refine ⟨?_, ?_, ?_, ?_, ?_, ?_, ?_, ?_⟩
  · intro sb d1 chOpt a s h
    simp only [castFunction2script]
    rw [castHeader_pre sb (some ⟨.castToChar, 10, d1, some "utf8"⟩) chOpt,
        show castHeader "" (some ⟨.castToChar, 10, d1, some "utf8"⟩) chOpt
          = .ok "$CAST_CHAR(10, \x27utf8\x27, " from rfl]
    simp only [prefixed_ok]
    rw [exprAtom2script_pre (sb ++ "$CAST_CHAR(10, \x27utf8\x27, ") a, h]
    simp only [prefixed_ok]
  · intro sb d0 d1 cs chOpt a s h
    simp only [castFunction2script]
    rw [castHeader_pre sb (some ⟨.castToUnsigned, d0, d1, cs⟩) chOpt,
        show castHeader "" (some ⟨.castToUnsigned, d0, d1, cs⟩) chOpt
          = .ok "$CAST_UNSIGNED(" from rfl]
    simp only [prefixed_ok]
    rw [exprAtom2script_pre (sb ++ "$CAST_UNSIGNED(") a, h]
    simp only [prefixed_ok]
  · intro sb d1 cs chOpt a s h
    simp only [castFunction2script]
    rw [castHeader_pre sb (some ⟨.castToNChar, 0, d1, cs⟩) chOpt,
        show castHeader "" (some ⟨.castToNChar, 0, d1, cs⟩) chOpt
          = .ok "$CAST_NCHAR(0, " from rfl]
    simp only [prefixed_ok]
    rw [exprAtom2script_pre (sb ++ "$CAST_NCHAR(0, ") a, h]
    simp only [prefixed_ok]
  · intro sb d1 chOpt a s h
    simp only [castFunction2script]
    rw [castHeader_pre sb (some ⟨.castToChar, 0, d1, none⟩) chOpt,
        show castHeader "" (some ⟨.castToChar, 0, d1, none⟩) chOpt
          = .ok "$CAST_CHAR(0, \x27\x27, " from rfl]
    simp only [prefixed_ok]
    rw [exprAtom2script_pre (sb ++ "$CAST_CHAR(0, \x27\x27, ") a, h]
    simp only [prefixed_ok]
  · intro sb cs chOpt a s h
    simp only [castFunction2script]
    rw [castHeader_pre sb (some ⟨.castToDecimal, 0, 0, cs⟩) chOpt,
        show castHeader "" (some ⟨.castToDecimal, 0, 0, cs⟩) chOpt
          = .ok "$CAST_DECIMAL(0, 0, " from rfl]
    simp only [prefixed_ok]
    rw [exprAtom2script_pre (sb ++ "$CAST_DECIMAL(0, 0, ") a, h]
    simp only [prefixed_ok]
  · intro sb cs a s h
    have hl1 : ("$CAST_CHARSET(\x27" : String) = "$" ++ "CAST_CHARSET(" ++ "\x27" := rfl
    have hl2 : ("\x27, " : String) = "\x27" ++ ", " := rfl
    simp only [castFunction2script]
    rw [castHeader_pre sb none (some cs)]
    simp only [castHeader, writeFuncName, _prefixMySQLFunc, prefixed_ok]
    rw [exprAtom2script_pre (sb ++ ("" ++ "$" ++ "CAST_CHARSET(" ++ "\x27" ++ escapeSingleQuote cs
          ++ "\x27" ++ ", ")) a, h]
    simp only [prefixed_ok]
    simp [hl1, hl2, String.append_assoc, String.empty_append]
  · intro sb d0 d1 cs chOpt source
    cases source with
    | predicateExpr p => cases p <;> simp [castFunction2script, castHeader]
    | otherExpr t => simp [castFunction2script, castHeader]
  · intro sb d0 d1 cs chOpt source
    cases source with
    | predicateExpr p => cases p <;> simp [castFunction2script, castHeader]
    | otherExpr t => simp [castFunction2script, castHeader]

/-- C4 witness: the two concrete renderings of the specification and a
concrete BINARY failure. -/
theorem C4_cast_rendering_witness :
    castFunction2script "" (.mk (some ⟨.castToChar, 10, 0, some "utf8"⟩) none
        (.predicateExpr (.atomP (.constantAtom "x"))))
      = .ok "$CAST_CHAR(10, \x27utf8\x27, x)"
    ∧ castFunction2script "" (.mk (some ⟨.castToUnsigned, 0, 0, none⟩) none
        (.predicateExpr (.atomP (.constantAtom "x"))))
      = .ok "$CAST_UNSIGNED(x)"
    ∧ castFunction2script "" (.mk (some ⟨.castToBinary, 0, 0, none⟩) none
        (.predicateExpr (.atomP (.constantAtom "x"))))
      = .error (.unsupported "cast to binary is not supported yet") :=
  ⟨(C4_cast_rendering.1 "" 0 none (.constantAtom "x") "x" rfl).trans (by rfl),
   (C4_cast_rendering.2.1 "" 0 0 none none (.constantAtom "x") "x" rfl).trans (by rfl),
   C4_cast_rendering.2.2.2.2.2.2.1 "" 0 0 none none (.predicateExpr (.atomP (.constantAtom "x")))⟩

/-- C2 counterexample: a column reference under an interval expression
makes translation fail with a stack-wrapped copy of the sentinel, which
the predicate does not recognize, refuting the claim that any tree
containing a column reference fails with the distinguished error that the
predicate accepts. -/
theorem C2_counterexample :
    exprAtom2script "" (.intervalAtom (.atomP (.columnNameAtom "x")) 5000000000)
      = .error (.withStack .colErr)
    ∧ IsEvalWithColumnErr (.withStack .colErr) = false
    ∧ TransErr.withStack .colErr ≠ .colErr :=
  ⟨rfl, rfl, by decide⟩

/-- C2 (amended): a tree containing a column reference (or column-typed
function argument) never translates successfully; the predicate accepts
exactly the distinguished sentinel; and when the column error propagates
out of an interval expression it is wrapped with a stack annotation (so
the predicate no longer accepts it there). -/
theorem C2_column_propagation :
    (∀ (sb : String) (n : ast.ExpressionAtom),
       atomHasColumn n = true → exOk (exprAtom2script sb n) = false)
    ∧ (∀ e : TransErr, IsEvalWithColumnErr e = true ↔ e = .colErr)
    ∧ (∀ (sb : String) (a : ast.ExpressionAtom) (ns : Int),
       exprAtom2script sb a = .error .colErr →
       exprAtom2script sb (.intervalAtom (.atomP a) ns) = .error (.withStack .colErr)) := by
  refine ⟨colAtom_fails, ?_, ?_⟩
  · intro e
    cases e <;> simp [IsEvalWithColumnErr]
  · intro sb a ns h
    simp only [exprAtom2script]
    rw [h]
    rfl

/-- C2 witness: a bare column atom fails, and the failure is the
sentinel accepted by the predicate. -/
theorem C2_column_propagation_witness :
    atomHasColumn (.columnNameAtom "c") = true
    ∧ exOk (exprAtom2script "" (.columnNameAtom "c")) = false
    ∧ (IsEvalWithColumnErr .colErr = true ↔ (TransErr.colErr = .colErr)) :=
  ⟨rfl, C2_column_propagation.1 "" (.columnNameAtom "c") rfl,
   C2_column_propagation.2.1 .colErr⟩

/-- C6 counterexample: a nested expression whose inner predicate is a
binary comparison is a structurally invalid shape that panics (failed
type assertion) instead of returning a recoverable error, and it is
neither of the two fatal conditions the claim lists. -/
theorem C6_counterexample :
    exprAtom2script "" (.nestedAtom (.predicateExpr (.binCmpP
        (.mk (.atomP (.constantAtom "1")) .ceq (.atomP (.constantAtom "2"))))))
      = .error (.panik "interface conversion")
    ∧ isPanik (.error (.panik "interface conversion")) = true :=
  ⟨rfl, rfl⟩

/-- C6 (amended): translation panics only on the fatal malformed-input
shapes — a unary operand that is neither a plain expression atom nor a
binary comparison, a CAST with neither target type nor charset, a nested
expression whose inner predicate is not an atom predicate, and a CAST
source that does not unwrap to an atom predicate; every node free of
those shapes yields success or a recoverable error, and each listed shape
does panic when reached. -/
theorem C6_panic_conditions :
    (∀ (sb : String) (n : ast.ExpressionAtom),
       atomPanicFree n = true → isPanik (exprAtom2script sb n) = false)
    ∧ (∀ (sb op t : String),
       exprAtom2script sb (.unaryAtom op (.innerOther t)) = .error (.panik "unreachable"))
    ∧ (∀ (sb : String) (source : ast.ExpressionNode),
       castFunction2script sb (.mk none none source) = .error (.panik "unreachable"))
    ∧ (∀ (sb : String) (c : ast.BinaryComparisonPredicateNode),
       exprAtom2script sb (.nestedAtom (.predicateExpr (.binCmpP c)))
         = .error (.panik "interface conversion"))
    ∧ (∀ (sb cs : String) (c : ast.BinaryComparisonPredicateNode),
       castFunction2script sb (.mk none (some cs) (.predicateExpr (.binCmpP c)))
         = .error (.panik "interface conversion")) := by
  refine ⟨pfAtom_noPanic, ?_, ?_, ?_, ?_⟩
  · intro sb op t
    simp [exprAtom2script]
  · intro sb source
    cases source with
    | predicateExpr p => cases p <;> simp [castFunction2script, castHeader]
    | otherExpr t => simp [castFunction2script, castHeader]
  · intro sb c
    simp [exprAtom2script]
  · intro sb cs c
    simp [castFunction2script, castHeader]

/-- C6 witness: a plain supported atom is panic-free and indeed does not
panic. -/
theorem C6_panic_conditions_witness :
    atomPanicFree (.constantAtom "x") = true
    ∧ isPanik (exprAtom2script "" (.constantAtom "x")) = false :=
  ⟨rfl, C6_panic_conditions.1 "" (.constantAtom "x") rfl⟩

/-- C3 counterexample: a CASE-WHEN-ELSE node with an empty branch list
translates to `", null"`, which is not the right-nested chain form (the
chain with no branches would be just the else element `null`), refuting
the claim for every CASE node. -/
theorem C3_counterexample :
    caseWhenFunction2script "" (.mk none [] none) = .ok ", null"
    ∧ ifChain none [] "null" = "null"
    ∧ (", null" : String) ≠ "null" :=
  ⟨rfl, rfl, by decide⟩

/-- C3 (amended): for every CASE-WHEN-ELSE node with at least one branch,
whose subject (when present) renders to a nonempty script, the translation
is the right-nested `$IF` chain: one nesting level per branch in declared
order, each when-script followed by ` == (<subject>)` exactly when a
subject exists, and the translated else (or the literal `null`) innermost. -/
theorem C3_case_nesting :
    (∀ (sb : String) (bs : List (ast.FunctionArg × ast.FunctionArg))
       (scripts : List (String × String)) (els : Option ast.FunctionArg) (elsS : String),
       argsScripts bs scripts → bs ≠ [] → elseScriptSpec els elsS →
       caseWhenFunction2script sb (.mk none bs els)
         = .ok (sb ++ ifChain none scripts elsS))
    ∧ (∀ (sb : String) (subj : ast.ExpressionNode) (cs : String)
       (bs : List (ast.FunctionArg × ast.FunctionArg))
       (scripts : List (String × String)) (els : Option ast.FunctionArg) (elsS : String),
       caseHeader (some subj) = .ok cs → cs ≠ "" →
       argsScripts bs scripts → bs ≠ [] → elseScriptSpec els elsS →
       caseWhenFunction2script sb (.mk (some subj) bs els)
         = .ok (sb ++ ifChain (some cs) scripts elsS)) := by
  constructor
  · intro sb bs scripts els elsS hbs hne hels
    have h := caseWhen_chain sb "" elsS none bs scripts els rfl hbs hne hels
    rw [ifChainStr_none] at h
    exact h
  · intro sb subj cs bs scripts els elsS hh hcs hbs hne hels
    have h := caseWhen_chain sb cs elsS (some subj) bs scripts els hh hbs hne hels
    rw [ifChainStr_some cs hcs] at h
    exact h

/-- C3 witness: the specification example — branches (1,A) (2,B) (3,C),
subject 2+1, else the star literal. -/
theorem C3_case_nesting_witness :
    caseWhenFunction2script ""
        (.mk (some (.predicateExpr (.atomP (.mathAtom
                (.mk (.constantAtom "2") "+" (.constantAtom "1"))))))
             [(.argConstant "1", .argConstant "\x27A\x27"),
              (.argConstant "2", .argConstant "\x27B\x27"),
              (.argConstant "3", .argConstant "\x27C\x27")]
             (some (.argConstant "\x27*\x27")))
      = .ok "$IF(1 == (2 + 1), \x27A\x27, $IF(2 == (2 + 1), \x27B\x27, $IF(3 == (2 + 1), \x27C\x27, \x27*\x27)))" := by
  have h := C3_case_nesting.2 ""
    (.predicateExpr (.atomP (.mathAtom (.mk (.constantAtom "2") "+" (.constantAtom "1")))))
    "2 + 1"
    [(.argConstant "1", .argConstant "\x27A\x27"),
     (.argConstant "2", .argConstant "\x27B\x27"),
     (.argConstant "3", .argConstant "\x27C\x27")]
    [("1", "\x27A\x27"), ("2", "\x27B\x27"), ("3", "\x27C\x27")]
    (some (.argConstant "\x27*\x27")) "\x27*\x27"
    rfl (by decide)
    ⟨rfl, rfl, rfl, rfl, rfl, rfl, trivial⟩ (by simp) rfl
  exact h.trans (by rfl)

/-- C5: once translation of a node has failed, the memoized computation
replays the same cached error on every later call without re-running
translation (its state is a fixed point and the source reference is
released), and every front-end evaluation returns no value and the
translation error unmodified, independently of the script engine. -/
theorem C5_error_replay (src : Source) (s : String) (e : TransErr) (sc1 : ScriptComputer)
    (h : (newScriptComputer src).compute = ((s, some e), sc1)) :
    sc1.compute = ((s, some e), sc1)
    ∧ sc1.source = none
    ∧ (∀ (α : Type) (vm : String → List α → Except String α) (args : List α),
        EvalFunction vm sc1 args = ((none, some (.transE e)), sc1))
    ∧ (∀ (α : Type) (vm vm2 : String → List α → Except String α) (args args2 : List α),
        EvalFunction vm (newScriptComputer src) args
          = ((none, some (.transE e)), sc1)
        ∧ EvalFunction vm (newScriptComputer src) args
          = EvalFunction vm2 (newScriptComputer src) args2) := by
  simp only [newScriptComputer, ScriptComputer.compute] at h
  simp only [Bool.false_eq_true, if_false] at h
  cases hs : sourceScript src with
  | ok s0 =>
    rw [hs] at h
    simp at h
  | error e0 =>
    rw [hs] at h
    simp only [Prod.mk.injEq] at h
    obtain ⟨⟨hse, hee⟩, hsc⟩ := h
    subst hse
    cases hee
    subst hsc
    refine ⟨rfl, rfl, ?_, ?_⟩
    · intro α vm args
      rfl
    · intro α vm vm2 args args2
      constructor
      · simp only [EvalFunction, newScriptComputer, ScriptComputer.compute,
          Bool.false_eq_true, if_false]
        rw [hs]
      · simp only [EvalFunction, newScriptComputer, ScriptComputer.compute,
          Bool.false_eq_true, if_false]
        rw [hs]

/-- C5 witness: a cast-to-binary node whose translation fails; the cached
error replays and the front-end returns it unmodified for a concrete
engine. -/
theorem C5_error_replay_witness :
    (newScriptComputer (.ofCast (.mk (some ⟨.castToBinary, 0, 0, none⟩) none
        (.predicateExpr (.atomP (.constantAtom "x")))))).compute
      = (("", some (.unsupported "cast to binary is not supported yet")),
         ⟨true, none, "", some (.unsupported "cast to binary is not supported yet")⟩)
    ∧ (⟨true, none, "", some (.unsupported "cast to binary is not supported yet")⟩
        : ScriptComputer).compute
      = (("", some (.unsupported "cast to binary is not supported yet")),
         ⟨true, none, "", some (.unsupported "cast to binary is not supported yet")⟩)
    ∧ EvalFunction (fun _ _ => .ok (0 : Nat))
        (⟨true, none, "", some (.unsupported "cast to binary is not supported yet")⟩
          : ScriptComputer) []
      = ((none, some (.transE (.unsupported "cast to binary is not supported yet"))),
         ⟨true, none, "", some (.unsupported "cast to binary is not supported yet")⟩) :=
  ⟨rfl,
   (C5_error_replay (.ofCast (.mk (some ⟨.castToBinary, 0, 0, none⟩) none
      (.predicateExpr (.atomP (.constantAtom "x"))))) _ _ _ rfl).1,
   (C5_error_replay (.ofCast (.mk (some ⟨.castToBinary, 0, 0, none⟩) none
      (.predicateExpr (.atomP (.constantAtom "x"))))) _ _ _ rfl).2.2.1
     Nat (fun _ _ => .ok 0) []⟩
